import Mathlib

/-!
Verification development for the scrypted-monitor plugin (`src/main.ts`,
`src/utils.ts`).  The TypeScript sources are shallowly embedded: the
key-value storage becomes a function `String → Option String`, fallible
JavaScript code becomes `Except`, the mutable reconciler fields become an
explicit `ReconcilerState`, and the side effects of one task execution
become an ordered list of `Event`s.
-/

namespace Monitor

/-- Flat key-value storage: `get(key) -> string | absent` (`storage.getItem`). -/
def Storage : Type := String → Option String

/-- The `Task` record produced by `getTask` in `main.ts`.  `type`,
`cronScheduler` and `calendarEntity` are raw `storage.getItem` results and
may be absent; every other field goes through `JSON.parse` with a default. -/
structure Task where
  name : String
  type : Option String
  cronScheduler : Option String
  rebootOnErrors : Bool
  skipNotify : Bool
  runSystemDiagnostic : Bool
  beta : Bool
  plugins : List String
  devices : List String
  additionalNotifiers : List String
  enabled : Bool
  checkAllPlugins : Bool
  maxStats : Int
  entitiesToAlwaysReport : List String
  entitiesToExclude : List String
  batteryThreshold : Int
  unavailableTime : Int
  calendarDaysInFuture : Int
  calendarEntity : Option String
deriving Repr, DecidableEq

/-- The concatenated storage keys built by `getTaskKeys` in `utils.ts`. -/
structure TaskKeys where
  taskTypeKey : String
  taskDevicesKey : String
  taskPluginsKey : String
  taskCronKey : String
  taskRebootKey : String
  taskEnabledKey : String
  taskSystemDiagnostic : String
  taskBetaKey : String
  taskMaxStatsKey : String
  taskSkipNotify : String
  taskCheckAllPluginsVersion : String
  taskBatteryThreshold : String
  taskEntitiesToAlwaysReport : String
  taskEntitiesToExclude : String
  taskAdditionalNotifiers : String
  taskCalendarEntity : String
  tasksUnavailableTime : String
  taskCalendarDaysInFuture : String
deriving Repr, DecidableEq

/-- `getTaskKeys` from `utils.ts`: every field is read under
`task:<name>:<field>`. -/
def getTaskKeys (taskName : String) : TaskKeys where
  taskTypeKey := "task:" ++ taskName ++ ":type"
  taskDevicesKey := "task:" ++ taskName ++ ":devices"
  taskPluginsKey := "task:" ++ taskName ++ ":plugins"
  taskCronKey := "task:" ++ taskName ++ ":cron"
  taskRebootKey := "task:" ++ taskName ++ ":reboot"
  taskEnabledKey := "task:" ++ taskName ++ ":enabled"
  taskSystemDiagnostic := "task:" ++ taskName ++ ":systemDiagnostic"
  taskBetaKey := "task:" ++ taskName ++ ":beta"
  taskMaxStatsKey := "task:" ++ taskName ++ ":maxStats"
  taskSkipNotify := "task:" ++ taskName ++ ":skipNotify"
  taskCheckAllPluginsVersion := "task:" ++ taskName ++ ":checkAllPlugins"
  taskBatteryThreshold := "task:" ++ taskName ++ ":batteryThreshold"
  taskEntitiesToAlwaysReport := "task:" ++ taskName ++ ":entitiesToAlwaysReport"
  taskEntitiesToExclude := "task:" ++ taskName ++ ":entitiesToExclude"
  taskAdditionalNotifiers := "task:" ++ taskName ++ ":additionalNotifiers"
  taskCalendarEntity := "task:" ++ taskName ++ ":calendarEntity"
  tasksUnavailableTime := "task:" ++ taskName ++ ":tasksUnavailableTime"
  taskCalendarDaysInFuture := "task:" ++ taskName ++ ":calendarDaysInFuture"

/-- `JSON.parse` restricted to the boolean literals the plugin stores.
Values outside the modeled fragment are treated as parse errors. -/
def jsonParseBool (s : String) : Except String Bool :=
  if s = "true" then .ok true
  else if s = "false" then .ok false
  else .error "expected a JSON boolean"

/-- Decimal digits to a number, or `none` when a non-digit appears or the
digit list is empty. -/
def natOfDigits : List Char → Option Nat
  | [] => none
  | cs => cs.foldl (fun acc c =>
      acc.bind fun n =>
        if 48 ≤ c.toNat ∧ c.toNat ≤ 57 then some (n * 10 + (c.toNat - 48)) else none)
      (some 0)

/-- A JSON integer literal (optional minus sign followed by digits). -/
def jsIntOfString (s : String) : Option Int :=
  match s.data with
  | '-' :: rest => (natOfDigits rest).map (fun n => -(n : Int))
  | cs => (natOfDigits cs).map (fun n => (n : Int))

/-- `JSON.parse` restricted to integer literals (the numeric fields the
plugin stores are integers). -/
def jsonParseInt (s : String) : Except String Int :=
  match jsIntOfString s with
  | some n => .ok n
  | none => .error "expected a JSON integer"

/-- One JSON string literal without escape sequences; strings that would
need escaping are treated as outside the modeled fragment. -/
def jsonParseStringLit (s : String) : Except String String :=
  if 2 ≤ s.length ∧ s.front = '"' ∧ s.back = '"' then
    let inner := (s.drop 1).dropRight 1
    if inner.data.any (fun c => c = '"' ∨ c = '\\' ∨ c = ',') then
      .error "unsupported string contents"
    else .ok inner
  else .error "expected a JSON string"

/-- Split a character list at every comma. -/
def splitCommaAux : List Char → List Char → List (List Char)
  | [], acc => [acc.reverse]
  | c :: cs, acc =>
    if c = ',' then acc.reverse :: splitCommaAux cs []
    else splitCommaAux cs (c :: acc)

/-- Split a string at every comma (the item separator `JSON.stringify`
emits for arrays). -/
def splitComma (s : String) : List String :=
  (splitCommaAux s.data []).map String.mk

/-- `JSON.parse` restricted to arrays of simple string literals (the shape
under which the plugin persists its list-valued fields). -/
def jsonParseStrList (s : String) : Except String (List String) :=
  if s = "[]" then .ok []
  else if 2 ≤ s.length ∧ s.front = '[' ∧ s.back = ']' then
    (splitComma ((s.drop 1).dropRight 1)).mapM jsonParseStringLit
  else .error "expected a JSON array"

/-- `getTask` from `main.ts`: each field is read at its `getTaskKeys` key;
an absent key falls back to the default literal fed to `JSON.parse`
(`?? 'false'`, `?? 'true'`, `?? '[]'`, `?? '5'`, `?? '30'`, `?? '24'`,
`?? '14'`); `type`, `cron` and `calendarEntity` are taken verbatim.
The parses happen in the field order of the source object literal. -/
def getTask (storage : Storage) (taskName : String) : Except String Task := do
  let keys := getTaskKeys taskName
  let rebootOnErrors ← jsonParseBool ((storage keys.taskRebootKey).getD "false")
  let skipNotify ← jsonParseBool ((storage keys.taskSkipNotify).getD "false")
  let runSystemDiagnostic ← jsonParseBool ((storage keys.taskSystemDiagnostic).getD "true")
  let beta ← jsonParseBool ((storage keys.taskBetaKey).getD "false")
  let plugins ← jsonParseStrList ((storage keys.taskPluginsKey).getD "[]")
  let devices ← jsonParseStrList ((storage keys.taskDevicesKey).getD "[]")
  let additionalNotifiers ← jsonParseStrList ((storage keys.taskAdditionalNotifiers).getD "[]")
  let enabled ← jsonParseBool ((storage keys.taskEnabledKey).getD "true")
  let checkAllPlugins ← jsonParseBool ((storage keys.taskCheckAllPluginsVersion).getD "true")
  let maxStats ← jsonParseInt ((storage keys.taskMaxStatsKey).getD "5")
  let entitiesToAlwaysReport ← jsonParseStrList ((storage keys.taskEntitiesToAlwaysReport).getD "[]")
  let entitiesToExclude ← jsonParseStrList ((storage keys.taskEntitiesToExclude).getD "[]")
  let batteryThreshold ← jsonParseInt ((storage keys.taskBatteryThreshold).getD "30")
  let unavailableTime ← jsonParseInt ((storage keys.tasksUnavailableTime).getD "24")
  let calendarDaysInFuture ← jsonParseInt ((storage keys.taskCalendarDaysInFuture).getD "14")
  pure {
    name := taskName
    type := storage keys.taskTypeKey
    cronScheduler := storage keys.taskCronKey
    rebootOnErrors, skipNotify, runSystemDiagnostic, beta, plugins, devices
    additionalNotifiers, enabled, checkAllPlugins, maxStats
    entitiesToAlwaysReport, entitiesToExclude, batteryThreshold
    unavailableTime, calendarDaysInFuture
    calendarEntity := storage keys.taskCalendarEntity }

/-- The fully-defaulted task record: what `getTask` yields when every one of
the task keys is absent from storage. -/
def defaultTask (taskName : String) : Task where
  name := taskName
  type := none
  cronScheduler := none
  rebootOnErrors := false
  skipNotify := false
  runSystemDiagnostic := true
  beta := false
  plugins := []
  devices := []
  additionalNotifiers := []
  enabled := true
  checkAllPlugins := true
  maxStats := 5
  entitiesToAlwaysReport := []
  entitiesToExclude := []
  batteryThreshold := 30
  unavailableTime := 24
  calendarDaysInFuture := 14
  calendarEntity := none

/-- All storage keys belonging to one task. -/
def taskKeyList (taskName : String) : List String :=
  let keys := getTaskKeys taskName
  [keys.taskTypeKey, keys.taskDevicesKey, keys.taskPluginsKey, keys.taskCronKey,
   keys.taskRebootKey, keys.taskEnabledKey, keys.taskSystemDiagnostic,
   keys.taskBetaKey, keys.taskMaxStatsKey, keys.taskSkipNotify,
   keys.taskCheckAllPluginsVersion, keys.taskBatteryThreshold,
   keys.taskEntitiesToAlwaysReport, keys.taskEntitiesToExclude,
   keys.taskAdditionalNotifiers, keys.taskCalendarEntity,
   keys.tasksUnavailableTime, keys.taskCalendarDaysInFuture]

/-- Minimal `JSON.stringify` escaping for the characters that can occur in
the strings of this model. -/
def jsonEscape (s : String) : String :=
  String.mk (s.data.foldl (fun acc c =>
    if c = '"' then acc ++ ['\\', '"']
    else if c = '\\' then acc ++ ['\\', '\\']
    else if c = '\n' then acc ++ ['\\', 'n']
    else acc ++ [c]) [])

/-- A JSON string literal. -/
def jsonStr (s : String) : String := "\"" ++ jsonEscape s ++ "\""

/-- `string | null` serialization (`storage.getItem` yields `null` for an
absent key, and `JSON.stringify` renders `null`). -/
def jsonOptStr : Option String → String
  | some s => jsonStr s
  | none => "null"

/-- JSON boolean rendering. -/
def jsonBoolStr : Bool → String
  | true => "true"
  | false => "false"

/-- JSON array-of-strings rendering. -/
def jsonStrListStr (l : List String) : String :=
  "[" ++ String.intercalate "," (l.map jsonStr) ++ "]"

/-- `getTaskChecksum` from `utils.ts`: `JSON.stringify(task)`, with the keys
in the insertion order of the object literal built by `getTask`. -/
def getTaskChecksum (t : Task) : String :=
  "\x7b" ++
  "\"name\":" ++ jsonStr t.name ++
  ",\"type\":" ++ jsonOptStr t.type ++
  ",\"cronScheduler\":" ++ jsonOptStr t.cronScheduler ++
  ",\"rebootOnErrors\":" ++ jsonBoolStr t.rebootOnErrors ++
  ",\"skipNotify\":" ++ jsonBoolStr t.skipNotify ++
  ",\"runSystemDiagnostic\":" ++ jsonBoolStr t.runSystemDiagnostic ++
  ",\"beta\":" ++ jsonBoolStr t.beta ++
  ",\"plugins\":" ++ jsonStrListStr t.plugins ++
  ",\"devices\":" ++ jsonStrListStr t.devices ++
  ",\"additionalNotifiers\":" ++ jsonStrListStr t.additionalNotifiers ++
  ",\"enabled\":" ++ jsonBoolStr t.enabled ++
  ",\"checkAllPlugins\":" ++ jsonBoolStr t.checkAllPlugins ++
  ",\"maxStats\":" ++ toString t.maxStats ++
  ",\"entitiesToAlwaysReport\":" ++ jsonStrListStr t.entitiesToAlwaysReport ++
  ",\"entitiesToExclude\":" ++ jsonStrListStr t.entitiesToExclude ++
  ",\"batteryThreshold\":" ++ toString t.batteryThreshold ++
  ",\"unavailableTime\":" ++ toString t.unavailableTime ++
  ",\"calendarDaysInFuture\":" ++ toString t.calendarDaysInFuture ++
  ",\"calendarEntity\":" ++ jsonOptStr t.calendarEntity ++
  "\x7d"

/-- The fingerprint computed by `checkActiveTasks`:
`JSON.stringify(taskEntities.map(getTaskChecksum))`. -/
def tasksChecksum (taskEntities : List Task) : String :=
  jsonStrListStr (taskEntities.map getTaskChecksum)

/-- One `node-cron` `ScheduledTask` handle: the task value captured by the
schedule closure, plus whether `stop()` has been called on it. -/
structure Timer where
  task : Task
  stopped : Bool
deriving Repr, DecidableEq

/-- Effect of `task.stop()` on a handle. -/
def stopTimer (t : Timer) : Timer := { t with stopped := true }

/-- The mutable fields of the plugin that `checkActiveTasks` touches:
`cronTasks` and `currentChecksum` (initially `undefined`). -/
structure ReconcilerState where
  cronTasks : List Timer
  currentChecksum : Option String
deriving Repr, DecidableEq

/-- `getTasks` from `main.ts`: decode every configured name and keep the
enabled ones in order.  A `JSON.parse` failure inside `getTask` propagates
out of the `forEach`. -/
def getTasks (storage : Storage) (names : List String) : Except String (List Task) :=
  names.foldlM (fun acc taskName => do
    let task ← getTask storage taskName
    pure (if task.enabled then acc ++ [task] else acc)) []

/-- `startTaskCron` from `main.ts`: inside a `try`, skip a falsy (absent or
empty) cron expression, otherwise call `cron.schedule` — which throws on an
expression the cron library rejects, caught and logged — and push the new
handle.  `validCron` stands for the cron library accepting the expression. -/
def startTaskCron (validCron : String → Bool) (cronTasks : List Timer) (task : Task) :
    List Timer :=
  match task.cronScheduler with
  | none => cronTasks
  | some c =>
    if c = "" then cronTasks
    else if validCron c then cronTasks ++ [{ task := task, stopped := false }]
    else cronTasks

/-- The timer `startTaskCron` would create for one task, if any. -/
def timerFor (validCron : String → Bool) (task : Task) : Option Timer :=
  match task.cronScheduler with
  | none => none
  | some c =>
    if c = "" then none
    else if validCron c then some { task := task, stopped := false }
    else none

/-- `checkActiveTasks` from `main.ts`: recompute the fingerprint of the
enabled tasks; on a mismatch store it, call `stop()` on every handle in
`cronTasks`, and run `startTaskCron` for each enabled task in order. -/
def checkActiveTasks (validCron : String → Bool) (storage : Storage)
    (names : List String) (s : ReconcilerState) : Except String ReconcilerState :=
  match getTasks storage names with
  | .error e => .error e
  | .ok taskEntities =>
    let newCronChecksum := tasksChecksum taskEntities
    if some newCronChecksum = s.currentChecksum then .ok s
    else .ok {
      currentChecksum := some newCronChecksum
      cronTasks := taskEntities.foldl (startTaskCron validCron) (s.cronTasks.map stopTimer) }

/-- A task gets a timer exactly when its cron expression is present,
non-empty and accepted by the cron library. -/
def schedulable (validCron : String → Bool) (t : Task) : Bool :=
  match t.cronScheduler with
  | some c => (c != "") && validCron c
  | none => false

/-- Concrete decoded task used by the reconciler witnesses: everything
defaulted except a stored cron expression. -/
def witnessTaskA : Task := { defaultTask "a" with cronScheduler := some "* * * * *" }

/-- Concrete storage used by the reconciler witnesses. -/
def witnessStorageA : Storage :=
  fun k => if k = "task:a:cron" then some "* * * * *" else none

/-- An npm version record as shaped by `checkNpmUpdate` in `utils.ts`. -/
structure NpmVersion where
  version : String
  tag : String
  time : String
deriving Repr, DecidableEq

/-- Split a character list at every occurrence of a separator character. -/
def splitOnCharAux (sep : Char) : List Char → List Char → List (List Char)
  | [], acc => [acc.reverse]
  | c :: cs, acc =>
    if c = sep then acc.reverse :: splitOnCharAux sep cs []
    else splitOnCharAux sep cs (c :: acc)

/-- Characters before the first `+` (semver build metadata is ignored by
`semver.compare`). -/
def takeUntilPlus : List Char → List Char
  | [] => []
  | c :: cs => if c = '+' then [] else c :: takeUntilPlus cs

/-- Split a version at its first `-` into release part and optional
prerelease part. -/
def splitAtHyphen : List Char → List Char × Option (List Char)
  | [] => ([], none)
  | c :: cs =>
    if c = '-' then ([], some cs)
    else
      let r := splitAtHyphen cs
      (c :: r.1, r.2)

/-- Key of one prerelease identifier: numeric identifiers sort below and
among themselves numerically; alphanumeric ones sort lexically by
character code (the semantic-versioning precedence rules). -/
def preIdKey (cs : List Char) : List Nat :=
  match natOfDigits cs with
  | some n => [0, n]
  | none => [1] ++ cs.map Char.toNat

/-- A sort key realizing `semver.compare`: compare major, minor, patch
numerically; a version with a prerelease precedes the same version
without one; prerelease identifier lists compare lexicographically with a
shorter prefix first.  Build metadata is ignored; out-of-grammar
components are keyed as zero. -/
def semverKey (v : String) : List (List Nat) :=
  let noBuild := takeUntilPlus v.data
  let parts := splitAtHyphen noBuild
  let nums := (splitOnCharAux '.' parts.1 []).map (fun cs => (natOfDigits cs).getD 0)
  let base := nums.map (fun n => [n])
  match parts.2 with
  | none => base ++ [[1]]
  | some preChars => base ++ [[0]] ++ (splitOnCharAux '.' preChars []).map preIdKey

/-- Ordering of version strings by their semver key. -/
def semverLeP (a b : String) : Prop := semverKey a ≤ semverKey b

instance : DecidableRel semverLeP :=
  fun a b => inferInstanceAs (Decidable (semverKey a ≤ semverKey b))

instance : IsTotal String semverLeP := ⟨fun a b => le_total (semverKey a) (semverKey b)⟩

instance : IsTrans String semverLeP := ⟨fun _ _ _ h1 h2 => le_trans h1 h2⟩

instance : IsRefl String semverLeP := ⟨fun a => le_refl (semverKey a)⟩

/-- The pure tail of `checkNpmUpdate` in `utils.ts`: sort the fetched
versions ascending by `semver.compare` and reverse them (newest first),
attach each dist-tag to the version it points at (a later dist-tag entry
overwrites an earlier one), default the tag to the empty string, and look
up the publish time. -/
def processNpmVersions (rawVersions : List String) (distTags : List (String × String))
    (timeOf : String → String) : List NpmVersion :=
  let sorted := (List.insertionSort semverLeP rawVersions).reverse
  sorted.map (fun v =>
    { version := v
      tag := (distTags.foldl (fun acc kv => if kv.2 = v then some kv.1 else acc) none).getD ""
      time := timeOf v })

/-- Result record of `pluginHasUpdate` in `utils.ts`. -/
structure HasUpdateRes where
  newVersion : Option String
  versions : Option (List NpmVersion)
  isBeta : Bool
deriving Repr, DecidableEq

/-- The version selection inside `pluginHasUpdate`: take `versions[0]`;
when it is dist-tagged `beta` and beta updates are off, fall back to the
version carrying the dist-tag `latest`.  Reading a property of a missing
entry throws in JavaScript, which becomes an error here. -/
def versionToUse (vs : List NpmVersion) (beta : Bool) : Except String NpmVersion :=
  match vs with
  | [] => .error "TypeError: versions[0] is undefined"
  | v0 :: _ =>
    if v0.tag = "beta" ∧ ¬beta then
      match vs.find? (fun v => v.tag = "latest") with
      | some v => .ok v
      | none => .error "TypeError: versionToUse is undefined"
    else .ok v0

/-- `pluginHasUpdate` from `utils.ts` over already-fetched registry data:
absent data gives an empty result; otherwise the selected version becomes
`newVersion` when it differs from the installed one. -/
def pluginHasUpdate (versions : Option (List NpmVersion)) (currentVersion : String)
    (beta : Bool) : Except String HasUpdateRes :=
  match versions with
  | none => .ok { newVersion := none, versions := none, isBeta := false }
  | some vs => do
    let vtu ← versionToUse vs beta
    pure {
      newVersion := if vtu.version ≠ currentVersion then some vtu.version else none
      versions := some vs
      isBeta := vtu.tag = "beta" }

/-- One `{ name, count }` entry of a plugin-stats section. -/
structure StatEntry where
  name : String
  count : Int
deriving Repr, DecidableEq

/-- The descending order realized by the JS comparator
`(a, b) => b.count - a.count`. -/
def statCountGe (a b : StatEntry) : Prop := b.count ≤ a.count

instance : DecidableRel statCountGe :=
  fun a b => inferInstanceAs (Decidable (b.count ≤ a.count))

instance : IsTotal StatEntry statCountGe := ⟨fun a b => le_total b.count a.count⟩

instance : IsTrans StatEntry statCountGe :=
  ⟨fun _ _ _ h1 h2 => le_trans h2 h1⟩

/-- Per-plugin numbers returned by `plugins.getPluginInfo`. -/
structure PluginInfoRec where
  clientsCount : Int
  rpcObjects : Int
  pendingResults : Int
deriving Repr, DecidableEq

/-- One fork of a cluster worker (only its device id matters here). -/
structure ClusterForkRec where
  id : String
deriving Repr, DecidableEq

/-- One cluster worker as returned by `getClusterWorkers`. -/
structure ClusterWorkerRec where
  name : String
  forks : List ClusterForkRec
deriving Repr, DecidableEq

/-- Benchmark numbers for one detector plugin. -/
structure DetectorStats where
  name : String
  time : String
  detections : Int
  detectionRate : String
deriving Repr, DecidableEq

/-- Result of `runBenchmark` (treated as collaborator data). -/
structure Benchmark where
  clusterDps : Option String
  detectorsStats : List DetectorStats
deriving Repr, DecidableEq

/-- The optional cluster section of the stats snapshot. -/
structure ClusterStats where
  workers : List StatEntry
  devices : List StatEntry
deriving Repr, DecidableEq

/-- The snapshot record built by `getPluginStats` in `utils.ts`. -/
structure PluginStats where
  currentObjectDetections : List String
  currentMotionDetections : List String
  currentActiveStreams : Int
  rpcObjects : List StatEntry
  connections : List StatEntry
  pendingResults : List StatEntry
  cluster : Option ClusterStats
  benchmark : Benchmark
  freeSpace : String
  recordingCameras : String
deriving Repr, DecidableEq

/-- The collaborators `getPluginStats` reads: the two settings-exposing
plugins, the plugin registry, the optional cluster component, the device
registry, the benchmark and the storage summary. -/
structure StatsEnv where
  videoAnalysis : Option (List String × List String)
  adaptiveStreams : Option Int
  pluginNames : List String
  pluginInfo : String → PluginInfoRec
  clusterWorkers : Option (List ClusterWorkerRec)
  deviceName : String → Option String
  benchmark : Benchmark
  freeSpace : String
  recordingCameras : String

/-- `getRpcData` from `utils.ts`: one entry per known plugin for each of
the three per-plugin numbers, in registry order. -/
def getRpcData (env : StatsEnv) : List StatEntry × List StatEntry × List StatEntry :=
  (env.pluginNames.map (fun n => StatEntry.mk n (env.pluginInfo n).rpcObjects),
   env.pluginNames.map (fun n => StatEntry.mk n (env.pluginInfo n).clientsCount),
   env.pluginNames.map (fun n => StatEntry.mk n (env.pluginInfo n).pendingResults))

/-- One step of filling `devicesData` in `getPluginStats`: bump the count
of an already-seen fork id, or append a fresh entry (named after the
device, `Unknown Device` when unresolvable) with count 1. -/
def bumpDevice (env : StatsEnv) (acc : List (String × StatEntry)) (forkId : String) :
    List (String × StatEntry) :=
  if acc.any (fun p => p.1 = forkId) then
    acc.map (fun p =>
      if p.1 = forkId then (p.1, { p.2 with count := p.2.count + 1 }) else p)
  else acc ++ [(forkId, StatEntry.mk ((env.deviceName forkId).getD "Unknown Device") 1)]

/-- The `devicesData` object of `getPluginStats`, read off in its key
insertion order (`Object.values`). -/
def clusterDevices (env : StatsEnv) (ws : List ClusterWorkerRec) : List StatEntry :=
  (ws.foldl (fun acc w => w.forks.foldl (fun acc f => bumpDevice env acc f.id) acc) []).map
    (fun p => p.2)

/-- `getPluginStats` from `utils.ts`: the three RPC sections are filtered
of zero counts, sorted descending by count and truncated to `maxStats`;
the cluster sections are truncated to `maxStats` in source order.
(`maxStats` is the `number` argument, modeled as the count the truncation
keeps.) -/
def getPluginStats (env : StatsEnv) (maxStats : Nat) : PluginStats :=
  let rpc := getRpcData env
  { currentObjectDetections := match env.videoAnalysis with
      | some p => p.1
      | none => []
    currentMotionDetections := match env.videoAnalysis with
      | some p => p.2
      | none => []
    currentActiveStreams := match env.adaptiveStreams with
      | some v => v
      | none => 0
    rpcObjects :=
      (List.insertionSort statCountGe (rpc.1.filter (fun p => p.count != 0))).take maxStats
    connections :=
      (List.insertionSort statCountGe (rpc.2.1.filter (fun p => p.count != 0))).take maxStats
    pendingResults :=
      (List.insertionSort statCountGe (rpc.2.2.filter (fun p => p.count != 0))).take maxStats
    cluster := env.clusterWorkers.map (fun ws =>
      { workers := (ws.map (fun w => StatEntry.mk w.name (w.forks.length : Int))).take maxStats
        devices := (clusterDevices env ws).take maxStats })
    benchmark := env.benchmark
    freeSpace := env.freeSpace
    recordingCameras := env.recordingCameras }

/-- Stats environment of the C7 counterexample: two cluster workers whose
fork counts come out ascending. -/
def statsEnvC : StatsEnv where
  videoAnalysis := none
  adaptiveStreams := none
  pluginNames := []
  pluginInfo := fun _ => PluginInfoRec.mk 0 0 0
  clusterWorkers := some [ClusterWorkerRec.mk "w1" [ClusterForkRec.mk "d1"],
    ClusterWorkerRec.mk "w2" [ClusterForkRec.mk "d1", ClusterForkRec.mk "d2"]]
  deviceName := fun _ => some "D"
  benchmark := Benchmark.mk none []
  freeSpace := "-"
  recordingCameras := "-"

/-- One validation step outcome captured by the interception hooks of
`runValidate` (`{ stepName, message? }`). -/
structure ValidationResult where
  stepName : String
  message : Option String
deriving Repr, DecidableEq

/-- The two method slots of the diagnostics plugin that `runValidate`
monkey-patches.  Their function values are opaque here (`V`, `W`): the
claims only concern which values sit in the slots. -/
structure DiagPlugin (V W : Type) where
  validate : V
  warnStep : W

/-- Step lists collected during one validation run by the interception
hooks (ok and error steps classified from embedded color codes, warn
steps from the replaced `warnStep`). -/
structure CollectedSteps where
  okSteps : List ValidationResult
  warnSteps : List ValidationResult
  errorSteps : List ValidationResult
deriving Repr, DecidableEq

/-- Result record of `runValidate`. -/
structure RunValidateRes where
  okSteps : List ValidationResult
  warnSteps : List ValidationResult
  errorSteps : List ValidationResult
  text : String
deriving Repr, DecidableEq

/-- Comma-joined step names: the template-literal rendering of the JS
array `steps.map(step => step.stepName)`. -/
def joinStepNames (steps : List ValidationResult) : String :=
  String.intercalate "," (steps.map (fun s => s.stepName))

/-- The report text built at the end of `runValidate`. -/
def buildValidateText (warnSteps errorSteps : List ValidationResult) : String :=
  if warnSteps.length = 0 ∧ errorSteps.length = 0 then "All good"
  else
    let t := if warnSteps.length ≠ 0 then "Warnings: " ++ joinStepNames warnSteps else ""
    if errorSteps.length ≠ 0 then
      (if warnSteps.length ≠ 0 then t ++ " - " else t) ++ "Errors: " ++ joinStepNames errorSteps
    else t

/-- The collaborators of `runValidate`: the interception closure it
installs into the `validate` slot, and the `validateDevice` /
`validateSystem` entry points, which run against the patched plugin, may
themselves overwrite the slots (the installed hook reassigns `warnStep`
on every step), and deliver the collected step lists or throw. -/
structure DiagEnv (V W E : Type) where
  patchedValidate : V
  validateDevice : DiagPlugin V W → String → Except E (DiagPlugin V W × CollectedSteps)
  validateSystem : DiagPlugin V W → Except E (DiagPlugin V W × CollectedSteps)

/-- `runValidate` from `utils.ts`: save the original `validate` and
`warnStep`, install the interception hook, run the device or system
validation (the device path carries the device id), then write the saved
methods back into both slots and render the report text. -/
def runValidate {V W E : Type} (env : DiagEnv V W E) (p : DiagPlugin V W)
    (deviceId : Option String) : Except E (DiagPlugin V W × RunValidateRes) :=
  let originalValidate := p.validate
  let originalWarnStep := p.warnStep
  let patched := { p with validate := env.patchedValidate }
  let run := match deviceId with
    | some d => env.validateDevice patched d
    | none => env.validateSystem patched
  match run with
  | .error e => .error e
  | .ok (p2, steps) =>
    .ok ({ p2 with validate := originalValidate, warnStep := originalWarnStep },
      { okSteps := steps.okSteps
        warnSteps := steps.warnSteps
        errorSteps := steps.errorSteps
        text := buildValidateText steps.warnSteps steps.errorSteps })

/-- The section divider of the report messages. -/
def divider : String := "-------------"

/-- JS template-literal rendering of a possibly-undefined string. -/
def jsShow (o : Option String) : String := o.getD "undefined"

/-- `pre.startsWith` over character lists (kernel-computable). -/
def strStartsWith (pre s : String) : Bool := pre.data.isPrefixOf s.data

/-- JS `Number(...)` restricted to integer literals; everything else is
`NaN`, modeled as `none` (so that every comparison against it is false). -/
def jsNumber (s : String) : Option Int := jsIntOfString s

/-- `a < b` where `a` may be `NaN`. -/
def numLt (a : Option Int) (b : Int) : Bool :=
  match a with
  | some n => n < b
  | none => false

/-- `a <= b` where `a` may be `NaN`. -/
def numLe (a : Option Int) (b : Int) : Bool :=
  match a with
  | some n => n ≤ b
  | none => false

/-- The external side effects one task execution can perform, in order. -/
inductive Event where
  | rebootDevice (deviceId : String)
  | restartPluginCall (packageName : String)
  | installNpm (packageName : String) (version : String)
  | sendNotification (notifierId : String) (title : String) (body : String)
      (priority : Option Int)
  | serviceControlExit
  | serviceControlRestart
deriving Repr, DecidableEq

/-- `updatePlugin` from `utils.ts` over already-fetched registry data:
`undefined` (`none`) when the registry had no data, otherwise the
`pluginHasUpdate` result, installing (one `installNpm` event) when a new
version was selected. -/
def updatePlugin (versions : Option (List NpmVersion)) (pluginName : String)
    (currentVersion : String) (beta : Bool) :
    Except String (Option HasUpdateRes × List Event) :=
  match pluginHasUpdate versions currentVersion beta with
  | .error e => .error e
  | .ok res =>
    match res.versions with
    | none => .ok (none, [])
    | some _ =>
      match res.newVersion with
      | some nv => .ok (some res, [Event.installNpm pluginName nv])
      | none => .ok (some res, [])

/-- A device record of the plugin registry (`getDeviceById` /
`getDeviceByName` on a plugin): id, display name and `info` fields. -/
structure PluginDevice where
  id : String
  name : String
  manufacturer : String
  version : String
deriving Repr, DecidableEq

/-- A device as the Diagnostics and RestartCameras branches see it. -/
structure DeviceRec where
  name : String
  hasReboot : Bool
deriving Repr, DecidableEq

/-- Attributes of one home-automation entity. -/
structure HaAttributes where
  device_class : Option String
  friendly_name : Option String
  unit_of_measurement : Option String
  last_seen : Option String
deriving Repr, DecidableEq

/-- One home-automation entity state. -/
structure HaEntity where
  entity_id : String
  state : Option String
  attributes : HaAttributes
  last_reported : Option String
deriving Repr, DecidableEq

/-- One calendar event. -/
structure CalEvent where
  summary : String
  start : String
deriving Repr, DecidableEq

/-- Everything `executeTask` consumes from outside: the host package name
(`scrypted.name` from `package.json`), the configured default notifier,
the registries, the diagnostics results, the npm registry data, the
home-automation data source and the date formatting.  External calls are
modeled as total functions supplied by this environment. -/
structure Env where
  selfName : String
  notifier : Option String
  statsEnv : StatsEnv
  pluginById : String → PluginDevice
  deviceById : String → DeviceRec
  deviceByName : String → PluginDevice
  allPluginNames : List String
  npmVersions : String → Option (List NpmVersion)
  validateResult : Option String → RunValidateRes
  haStates : List HaEntity
  regexTest : String → String → Bool
  tomorrowStart : String
  tomorrowEnd : String
  futureEndOf : Int → String
  getCalendarEvents : Option String → String → String → Option (List CalEvent)
  fromNow : String → String

/-- The partial report one dispatch branch produces: its events, the
accumulated message, the optional priority, the `forceStop` flag and the
deferred action (as the events running it would emit). -/
structure BranchOut where
  events : List Event
  message : String
  priority : Option Int
  forceStop : Bool
  deferred : Option (List Event)
deriving Repr, DecidableEq

/-- Accumulator of the Diagnostics and RestartCameras loops. -/
structure DiagAcc where
  events : List Event
  message : String
deriving Repr, DecidableEq

/-- One iteration of the Diagnostics device loop. -/
def diagStep (env : Env) (rebootOnErrors : Bool) (acc : DiagAcc) (did : String) : DiagAcc :=
  let device := env.deviceById did
  let result := env.validateResult (some did)
  let m1 := acc.message ++ "[" ++ device.name ++ "]: " ++ result.text
  if rebootOnErrors ∧ result.errorSteps.length ≠ 0 ∧ device.hasReboot then
    { events := acc.events ++ [Event.rebootDevice did], message := m1 ++ " | Restarting |" ++ "\n" }
  else { events := acc.events, message := m1 ++ "\n" }

/-- The Diagnostics branch: validate each device (rebooting reboot-capable
devices on errors when configured), then optionally the whole system. -/
def runDiagnostics (env : Env) (task : Task) : BranchOut :=
  let acc := task.devices.foldl (diagStep env task.rebootOnErrors) ⟨[], ""⟩
  let message := if task.runSystemDiagnostic then
      acc.message ++ "[System]: " ++ (env.validateResult none).text
    else acc.message
  { events := acc.events, message := message, priority := none, forceStop := false,
    deferred := none }

/-- Accumulator of the RestartPlugins loop. -/
structure RestartAcc where
  events : List Event
  message : String
  shouldSelfRestart : Bool
deriving Repr, DecidableEq

/-- One iteration of the RestartPlugins loop: the host package itself and
`@scrypted/core` are not restarted in place, they only set the
self-restart flag. -/
def restartStep (env : Env) (acc : RestartAcc) (pid : String) : RestartAcc :=
  let packageName := (env.pluginById pid).manufacturer
  if packageName = env.selfName ∨ packageName = "@scrypted/core" then
    { acc with
        shouldSelfRestart := true
        message := acc.message ++ "[" ++ packageName ++ "]: Restarted\n" }
  else
    { acc with
        events := acc.events ++ [Event.restartPluginCall packageName]
        message := acc.message ++ "[" ++ packageName ++ "]: Restarted\n" }

/-- The RestartPlugins branch; a self-restart is deferred as
`restartPlugin(scrypted.name)`. -/
def runRestartPlugins (env : Env) (task : Task) : BranchOut :=
  let acc := task.plugins.foldl (restartStep env) ⟨[], "", false⟩
  { events := acc.events, message := acc.message, priority := none, forceStop := false,
    deferred := if acc.shouldSelfRestart then some [Event.restartPluginCall env.selfName]
      else none }

/-- The ` (beta)` suffix plus newline appended by `finalizeVersion`. -/
def betaSuffix (isBeta : Bool) : String := if isBeta then " (beta)\n" else "\n"

/-- Accumulator of the UpdatePlugins target loop. -/
structure UpdateAcc where
  events : List Event
  message : String
deriving Repr, DecidableEq

/-- The UpdatePlugins target loop.  `updatePlugin` returning `undefined`
makes the caller destructure `undefined` — a thrown TypeError that aborts
the execution (the events already performed stand). -/
def updateLoop (env : Env) (beta : Bool) : List String → UpdateAcc → Except (List Event) UpdateAcc
  | [], acc => .ok acc
  | pid :: rest, acc =>
    let p := env.pluginById pid
    match updatePlugin (env.npmVersions p.manufacturer) p.manufacturer p.version beta with
    | .error _ => .error acc.events
    | .ok (none, _) => .error acc.events
    | .ok (some res, evs) =>
      let m := match res.newVersion with
        | some nv => acc.message ++ "[" ++ p.manufacturer ++ "]: Updated " ++ p.version ++
            " -> " ++ nv ++ betaSuffix res.isBeta
        | none =>
          let versionEntry := (res.versions.getD []).find? (fun it => it.version = p.version)
          acc.message ++ "[" ++ p.manufacturer ++ "]: Already on latest version " ++ p.version ++
            betaSuffix (match versionEntry with
              | some ve => ve.tag == "beta"
              | none => false)
      updateLoop env beta rest { events := acc.events ++ evs, message := m }

/-- Accumulator of the check-other-plugins loop. -/
structure CheckAcc where
  message : String
  somePluginOutdated : Bool
deriving Repr, DecidableEq

/-- The UpdatePlugins check-other-plugins loop: report (without
installing) every other plugin with an update available. -/
def checkOthersLoop (env : Env) (beta : Bool) :
    List PluginDevice → CheckAcc → Except Unit CheckAcc
  | [], acc => .ok acc
  | p :: rest, acc =>
    match pluginHasUpdate (env.npmVersions p.manufacturer) p.version beta with
    | .error _ => .error ()
    | .ok res =>
      match res.newVersion with
      | some nv =>
        checkOthersLoop env beta rest
          { message := acc.message ++ "[" ++ p.manufacturer ++ "]: New version available " ++
              nv ++ betaSuffix res.isBeta
            somePluginOutdated := true }
      | none => checkOthersLoop env beta rest acc

/-- The UpdatePlugins branch. -/
def runUpdatePlugins (env : Env) (task : Task) : Except (List Event) BranchOut :=
  match updateLoop env task.beta task.plugins ⟨[], ""⟩ with
  | .error evs => .error evs
  | .ok acc =>
    if task.checkAllPlugins then
      let otherPlugins := (env.allPluginNames.map env.deviceByName).filter
        (fun p => ¬ task.plugins.contains p.id)
      match checkOthersLoop env task.beta otherPlugins ⟨acc.message, false⟩ with
      | .error _ => .error acc.events
      | .ok cacc =>
        let m := if cacc.somePluginOutdated then cacc.message
          else cacc.message ++ "\nAll the other plugins are on the latest version\n"
        .ok {
          events := acc.events
          message := m
          priority := none
          forceStop := false
          deferred := none }
    else
      .ok {
        events := acc.events
        message := acc.message
        priority := none
        forceStop := false
        deferred := none }

/-- One `name: count` line per entry. -/
def statLines (m : String) (entries : List StatEntry) : String :=
  entries.foldl (fun m it => m ++ it.name ++ ": " ++ toString it.count ++ "\n") m

/-- The sectioned text the ReportPluginsStatus branch renders from the
snapshot.  The benchmark record, the detection arrays and the stream
number are always JS-truthy, so their sections always render; the
connection section renders only when non-empty and the cluster sections
only when the cluster component exists. -/
def renderPluginStats (stats : PluginStats) : String :=
  let m := "[Benchmark]\n"
  let m := stats.benchmark.detectorsStats.foldl (fun m it =>
    m ++ it.name ++ ": " ++ toString it.detections ++ " detections in " ++ it.time ++
      " seconds (" ++ it.detectionRate ++ " dps)\n") m
  let m := match stats.benchmark.clusterDps with
    | some dps => m ++ "Cluster detections per second: " ++ dps ++ "\n"
    | none => m
  let m := m ++ divider ++ "\n"
  let m := m ++ "[General]\n"
  let m := m ++ "Active object detection sessions: " ++
    toString stats.currentObjectDetections.length ++ "\n"
  let m := m ++ "Active motion detection sessions: " ++
    toString stats.currentMotionDetections.length ++ "\n"
  let m := m ++ "Active stream sessions: " ++ toString stats.currentActiveStreams ++ "\n"
  let m := m ++ "Storage usage: " ++ stats.freeSpace ++ "\n"
  let m := m ++ "Recording cameras: " ++ stats.recordingCameras ++ "\n"
  let m := m ++ divider ++ "\n"
  let m := statLines (m ++ "[RPC Objects]\n") stats.rpcObjects ++ divider ++ "\n"
  let m := statLines (m ++ "[Pending Results]\n") stats.pendingResults ++ divider ++ "\n"
  let m := if stats.connections.length ≠ 0 then
      statLines (m ++ "[Connections]\n") stats.connections ++ divider ++ "\n"
    else m
  match stats.cluster with
  | some c =>
    statLines (statLines (m ++ "[Workers]\n") c.workers ++ divider ++ "\n" ++ "[Devices]\n")
      c.devices
  | none => m

/-- The ReportPluginsStatus branch. -/
def runReportPluginsStatus (env : Env) (task : Task) : BranchOut :=
  { events := [], message := renderPluginStats (getPluginStats env.statsEnv task.maxStats.toNat)
    priority := none, forceStop := false, deferred := none }

/-- One iteration of the RestartCameras loop. -/
def camerasStep (env : Env) (acc : DiagAcc) (did : String) : DiagAcc :=
  { events := acc.events ++ [Event.rebootDevice did]
    message := acc.message ++ "[" ++ (env.deviceById did).name ++ "] Restarted\n" }

/-- The RestartCameras branch. -/
def runRestartCameras (env : Env) (task : Task) : BranchOut :=
  let acc := task.devices.foldl (camerasStep env) ⟨[], ""⟩
  { events := acc.events, message := acc.message, priority := none, forceStop := false,
    deferred := none }

/-- Accumulator of the battery-report loop. -/
structure BatteryAcc where
  message : String
  priority : Option Int
  atLeast1LowBattery : Bool
  trackedEntries : List String
deriving Repr, DecidableEq

/-- One iteration of the ReportHaBatteryStatus entity loop. -/
def batteryStep (alwaysReport excl : List String) (batteryThreshold : Int)
    (acc : BatteryAcc) (e : HaEntity) : BatteryAcc :=
  if ¬ excl.contains e.entity_id ∧ e.attributes.device_class = some "battery" then
    if strStartsWith "sensor." e.entity_id then
      let batteryPerc : Option Int := match e.state with
        | none => some (-1)
        | some s => jsNumber s
      let acc1 := if numLt batteryPerc 10 then { acc with priority := some 1 } else acc
      let messageToAdd := jsShow e.attributes.friendly_name ++ " (" ++ jsShow e.state ++ "%)"
      if alwaysReport.contains e.entity_id then
        { acc1 with trackedEntries := acc1.trackedEntries ++ [messageToAdd] }
      else if numLt batteryPerc batteryThreshold then
        { acc1 with message := acc1.message ++ messageToAdd ++ "\n", atLeast1LowBattery := true }
      else acc1
    else if strStartsWith "binary_sensor." e.entity_id then
      let messageToAdd := jsShow e.attributes.friendly_name
      if alwaysReport.contains e.entity_id then
        { acc with trackedEntries := acc.trackedEntries ++ [messageToAdd] }
      else if e.state = some "on" then
        { acc with
            priority := some 1
            message := acc.message ++ messageToAdd ++ "\n"
            atLeast1LowBattery := true }
      else acc
    else acc
  else acc

/-- Append each entry on its own line. -/
def appendLines (msg : String) (entries : List String) : String :=
  entries.foldl (fun m e => m ++ e ++ "\n") msg

/-- The ReportHaBatteryStatus branch: it never sets `forceStop`; with no
low battery and nothing tracked, the message is `All batteries ok`. -/
def runReportHaBatteryStatus (env : Env) (task : Task) : BranchOut :=
  let acc := env.haStates.foldl
    (batteryStep task.entitiesToAlwaysReport task.entitiesToExclude task.batteryThreshold)
    ⟨"", none, false, []⟩
  let m1 := if acc.trackedEntries ≠ [] then
      appendLines (if acc.atLeast1LowBattery then acc.message ++ divider ++ "\n" else acc.message)
        acc.trackedEntries
    else acc.message
  let m2 := if ¬ acc.atLeast1LowBattery ∧ acc.trackedEntries = [] then
      m1 ++ "All batteries ok\n"
    else m1
  { events := [], message := m2, priority := acc.priority, forceStop := false, deferred := none }

/-- The filter the ReportHaUnavailableEntities loop applies to one entity:
unavailable, matching an always-report regex when some are configured and
matching no exclude regex. -/
def unavailCond (env : Env) (task : Task) (e : HaEntity) : Bool :=
  (e.state == some "unavailable") &&
  (if task.entitiesToAlwaysReport.isEmpty then true
    else task.entitiesToAlwaysReport.any (fun re => env.regexTest re e.entity_id)) &&
  (if task.entitiesToExclude.isEmpty then true
    else task.entitiesToExclude.all (fun re => !(env.regexTest re e.entity_id)))

/-- Accumulator of the unavailable-entity loop. -/
structure UnavailAcc where
  message : String
  atLeast1Unavailable : Bool
deriving Repr, DecidableEq

/-- One iteration of the ReportHaUnavailableEntities entity loop. -/
def unavailStep (env : Env) (task : Task) (acc : UnavailAcc) (e : HaEntity) : UnavailAcc :=
  if unavailCond env task e then
    let lastUpdate := match e.attributes.last_seen with
      | some lu => some lu
      | none => e.last_reported
    let messageToAdd := jsShow e.attributes.friendly_name ++ (match lastUpdate with
      | some lu => ": " ++ env.fromNow lu
      | none => "")
    { message := acc.message ++ messageToAdd ++ "\n", atLeast1Unavailable := true }
  else acc

/-- The ReportHaUnavailableEntities branch: `forceStop` when nothing was
unavailable. -/
def runReportHaUnavailableEntities (env : Env) (task : Task) : BranchOut :=
  let acc := env.haStates.foldl (unavailStep env task) ⟨"", false⟩
  { events := [], message := acc.message, priority := none,
    forceStop := !acc.atLeast1Unavailable, deferred := none }

/-- `Number(entity.state)`: `NaN` when the state is absent or not an
integer literal. -/
def jsNumState (e : HaEntity) : Option Int :=
  match e.state with
  | some s => jsNumber s
  | none => none

/-- Whether the ReportHaConsumables loop flags one entity: tracked, and a
percentage under 10, a day count of at most 3, or a problem-class entity
in `on` state. -/
def consumableProblem (alwaysReport : List String) (e : HaEntity) : Bool :=
  alwaysReport.contains e.entity_id &&
  (if e.attributes.unit_of_measurement == some "%" then numLt (jsNumState e) 10
   else if e.attributes.unit_of_measurement == some "d" then numLe (jsNumState e) 3
   else if e.attributes.device_class == some "problem" then e.state == some "on"
   else false)

/-- Accumulator of the consumables loop. -/
structure ConsumAcc where
  message : String
  atLeast1Problem : Bool
deriving Repr, DecidableEq

/-- One iteration of the ReportHaConsumables entity loop. -/
def consumStep (alwaysReport : List String) (acc : ConsumAcc) (e : HaEntity) : ConsumAcc :=
  if alwaysReport.contains e.entity_id then
    if e.attributes.unit_of_measurement == some "%" then
      if numLt (jsNumState e) 10 then
        { message := acc.message ++ jsShow e.attributes.friendly_name ++ ": " ++
            jsShow e.state ++ " %\n"
          atLeast1Problem := true }
      else acc
    else if e.attributes.unit_of_measurement == some "d" then
      if numLe (jsNumState e) 3 then
        { message := acc.message ++ jsShow e.attributes.friendly_name ++ ": " ++
            jsShow e.state ++ " days\n"
          atLeast1Problem := true }
      else acc
    else if e.attributes.device_class == some "problem" then
      if e.state == some "on" then
        { message := acc.message ++ jsShow e.attributes.friendly_name ++ "\n"
          atLeast1Problem := true }
      else acc
    else acc
  else acc

/-- The ReportHaConsumables branch: `forceStop` when nothing was flagged,
priority 1 otherwise. -/
def runReportHaConsumables (env : Env) (task : Task) : BranchOut :=
  let acc := env.haStates.foldl (consumStep task.entitiesToAlwaysReport) ⟨"", false⟩
  { events := [], message := acc.message
    priority := if acc.atLeast1Problem then some 1 else none
    forceStop := !acc.atLeast1Problem, deferred := none }

/-- One `summary - relative time` line per calendar event. -/
def calEventLines (env : Env) (m : String) (events : List CalEvent) : String :=
  events.foldl (fun m ev => m ++ ev.summary ++ " - " ++ env.fromNow ev.start ++ "\n") m

/-- The TomorrowEventsHa branch: fetch tomorrow and the future window; a
missing calendar response makes the iteration throw; `forceStop` when
both windows are empty, priority 1 when tomorrow has events. -/
def runTomorrowEventsHa (env : Env) (task : Task) : Except (List Event) BranchOut :=
  let eventsOpt := env.getCalendarEvents task.calendarEntity env.tomorrowStart env.tomorrowEnd
  let eventsFutureOpt := env.getCalendarEvents task.calendarEntity env.tomorrowEnd
    (env.futureEndOf task.calendarDaysInFuture)
  match eventsOpt with
  | none => .error []
  | some events =>
    let m1 := calEventLines env "" events
    match eventsFutureOpt with
    | none => .error []
    | some eventsFuture =>
      let m2 := if !eventsFuture.isEmpty then
          calEventLines env (if !events.isEmpty then m1 ++ divider ++ "\n" else m1) eventsFuture
        else m1
      .ok {
        events := []
        message := m2
        priority := if !events.isEmpty then some 1 else none
        forceStop := events.isEmpty && eventsFuture.isEmpty
        deferred := none }

/-- The RestartScrypted branch: report, and defer
`serviceControl.exit(); serviceControl.restart()`. -/
def runRestartScrypted (_env : Env) (_task : Task) : BranchOut :=
  { events := [], message := "Scrypted restarted", priority := none, forceStop := false,
    deferred := some [Event.serviceControlExit, Event.serviceControlRestart] }

/-- The dispatch chain of `executeTask` over `task.type` (an arbitrary
stored string; an unrecognized type falls through every branch). -/
def runBranch (env : Env) (task : Task) : Except (List Event) BranchOut :=
  if task.type = some "Diagnostics" then .ok (runDiagnostics env task)
  else if task.type = some "RestartPlugins" then .ok (runRestartPlugins env task)
  else if task.type = some "UpdatePlugins" then runUpdatePlugins env task
  else if task.type = some "ReportPluginsStatus" then .ok (runReportPluginsStatus env task)
  else if task.type = some "RestartCameras" then .ok (runRestartCameras env task)
  else if task.type = some "ReportHaBatteryStatus" then .ok (runReportHaBatteryStatus env task)
  else if task.type = some "ReportHaUnavailableEntities" then
    .ok (runReportHaUnavailableEntities env task)
  else if task.type = some "ReportHaConsumables" then .ok (runReportHaConsumables env task)
  else if task.type = some "TomorrowEventsHa" then runTomorrowEventsHa env task
  else if task.type = some "RestartScrypted" then .ok (runRestartScrypted env task)
  else .ok { events := [], message := "", priority := none, forceStop := false, deferred := none }

/-- Result of one completed task execution. -/
structure ExecResult where
  events : List Event
  message : String
  priority : Option Int
  forceStop : Bool
deriving Repr, DecidableEq

/-- Outcome of one task execution: completed, or aborted by a thrown
error after having emitted some events. -/
inductive ExecOutcome where
  | ok (r : ExecResult)
  | err (events : List Event)
deriving Repr, DecidableEq

/-- `executeTask` from `main.ts`: run the dispatch branch; unless
`skipNotify` or the branch set `forceStop`, notify every resolved target
(the additional notifiers when configured, else the default one) with the
task name as title and the accumulated message as body; finally run the
deferred action if the branch produced one. -/
def executeTask (env : Env) (task : Task) : ExecOutcome :=
  match runBranch env task with
  | .error evs => .err evs
  | .ok b =>
    let notifiers := if !task.additionalNotifiers.isEmpty then task.additionalNotifiers
      else match env.notifier with
        | some n => [n]
        | none => []
    let notifyEvents := if !task.skipNotify && !b.forceStop then
        notifiers.map (fun nid => Event.sendNotification nid task.name b.message b.priority)
      else []
    .ok { events := b.events ++ notifyEvents ++ (b.deferred.getD [])
          message := b.message, priority := b.priority, forceStop := b.forceStop }

/-- The ordered event trace of one execution (also for aborted runs). -/
def traceOf : ExecOutcome → List Event
  | .ok r => r.events
  | .err evs => evs

/-- The `forceStop` flag of a completed execution. -/
def execForceStop : ExecOutcome → Option Bool
  | .ok r => some r.forceStop
  | .err _ => none

/-- Whether an event is a notification send. -/
def Event.isNotification : Event → Bool
  | .sendNotification _ _ _ _ => true
  | _ => false

/-- Whether an event belongs to a deferred restart: the scrypted service
restart, or restarting the host plugin package itself. -/
def isDeferredRestartEvent (selfName : String) : Event → Bool
  | .serviceControlExit => true
  | .serviceControlRestart => true
  | .restartPluginCall p => p == selfName
  | _ => false

/-- The notification events of a trace, in order. -/
def notificationsOf (evs : List Event) : List Event := evs.filter Event.isNotification

/-- An event is clean when it is neither a notification, nor part of a
deferred restart, nor a restart of `@scrypted/core`. -/
def cleanEvent (selfName : String) (e : Event) : Prop :=
  e.isNotification = false ∧ isDeferredRestartEvent selfName e = false ∧
  e ≠ Event.restartPluginCall "@scrypted/core"

/-- A stats environment with no plugins, no cluster and no benchmark. -/
def trivialStatsEnv : StatsEnv where
  videoAnalysis := none
  adaptiveStreams := none
  pluginNames := []
  pluginInfo := fun _ => PluginInfoRec.mk 0 0 0
  clusterWorkers := none
  deviceName := fun _ => none
  benchmark := Benchmark.mk none []
  freeSpace := "-"
  recordingCameras := "-"

/-- A concrete execution environment for the witnesses: one configured
default notifier, empty registries and an empty home-automation state. -/
def trivialEnv : Env where
  selfName := "scrypted-monitor"
  notifier := some "notifier1"
  statsEnv := trivialStatsEnv
  pluginById := fun _ => PluginDevice.mk "" "" "" ""
  deviceById := fun _ => DeviceRec.mk "" false
  deviceByName := fun _ => PluginDevice.mk "" "" "" ""
  allPluginNames := []
  npmVersions := fun _ => none
  validateResult := fun _ => RunValidateRes.mk [] [] [] "All good"
  haStates := []
  regexTest := fun _ _ => false
  tomorrowStart := "TS"
  tomorrowEnd := "TE"
  futureEndOf := fun _ => "FE"
  getCalendarEvents := fun _ _ _ => some []
  fromNow := fun _ => "now"

/-- A default task of the given type, used by the witnesses. -/
def taskOfType (ty : String) : Task := { defaultTask "t" with type := some ty }

theorem startTaskCron_eq_append (vc : String → Bool) (acc : List Timer) (t : Task) :
    startTaskCron vc acc t = acc ++ (timerFor vc t).toList := by
  unfold startTaskCron timerFor
  cases t.cronScheduler with
  | none => simp
  | some c =>
    by_cases h : c = ""
    · simp [h]
    · by_cases hv : vc c = true <;> simp [h, hv]

theorem foldl_startTaskCron (vc : String → Bool) (ts : List Task) (acc : List Timer) :
    ts.foldl (startTaskCron vc) acc = acc ++ ts.filterMap (timerFor vc) := by
  induction ts generalizing acc with
  | nil => simp
  | cons t ts ih =>
    simp only [List.foldl_cons, List.filterMap_cons, ih, startTaskCron_eq_append]
    cases h : timerFor vc t <;> simp [h]

theorem timerFor_eq_of_schedulable (vc : String → Bool) (t : Task) :
    timerFor vc t = if schedulable vc t then some { task := t, stopped := false } else none := by
  unfold timerFor schedulable
  cases t.cronScheduler with
  | none => simp
  | some c =>
    by_cases h : c = ""
    · simp [h]
    · by_cases hv : vc c = true <;> simp [h, hv]

theorem filterMap_timerFor (vc : String → Bool) (ts : List Task) :
    ts.filterMap (timerFor vc) =
      (ts.filter (schedulable vc)).map (fun t => { task := t, stopped := false }) := by
  induction ts with
  | nil => simp
  | cons t ts ih =>
    simp only [List.filterMap_cons, List.filter_cons, timerFor_eq_of_schedulable]
    by_cases h : schedulable vc t = true <;> simp [h, ih]

theorem checkActiveTasks_ok_eq (vc : String → Bool) (st : Storage)
    (names : List String) (s : ReconcilerState) (ts : List Task)
    (hg : getTasks st names = .ok ts) :
    checkActiveTasks vc st names s =
      if some (tasksChecksum ts) = s.currentChecksum then .ok s
      else .ok {
        currentChecksum := some (tasksChecksum ts)
        cronTasks := ts.foldl (startTaskCron vc) (s.cronTasks.map stopTimer) } := by
  unfold checkActiveTasks
  rw [hg]

theorem checkActiveTasks_error_eq (vc : String → Bool) (st : Storage)
    (names : List String) (s : ReconcilerState) (e : String)
    (hg : getTasks st names = .error e) :
    checkActiveTasks vc st names s = .error e := by
  unfold checkActiveTasks
  rw [hg]

/-- C1: Reconciliation is idempotent.  If a tick with unchanged storage
succeeded, running it again is a no-op returning exactly the same state
(same timer list, same stored fingerprint — nothing is stopped or
created); and whenever the freshly computed fingerprint equals the stored
one the tick leaves the state untouched. -/
theorem checkActiveTasks_idempotent :
    (∀ (vc : String → Bool) (st : Storage) (names : List String)
        (s s₁ : ReconcilerState),
        checkActiveTasks vc st names s = .ok s₁ →
        checkActiveTasks vc st names s₁ = .ok s₁) ∧
    (∀ (vc : String → Bool) (st : Storage) (names : List String)
        (s : ReconcilerState) (ts : List Task),
        getTasks st names = .ok ts →
        some (tasksChecksum ts) = s.currentChecksum →
        checkActiveTasks vc st names s = .ok s) := by
  constructor
  · intro vc st names s s₁ h
    cases hg : getTasks st names with
    | error e =>
      rw [checkActiveTasks_error_eq vc st names s e hg] at h
      exact absurd h (by simp)
    | ok ts =>
      rw [checkActiveTasks_ok_eq vc st names s ts hg] at h
      rw [checkActiveTasks_ok_eq vc st names s₁ ts hg]
      by_cases hc : some (tasksChecksum ts) = s.currentChecksum
      · rw [if_pos hc] at h
        simp only [Except.ok.injEq] at h
        subst h
        rw [if_pos hc]
      · rw [if_neg hc] at h
        simp only [Except.ok.injEq] at h
        subst h
        simp
  · intro vc st names s ts hg hc
    rw [checkActiveTasks_ok_eq vc st names s ts hg, if_pos hc]

/-- C1 witness: a concrete first tick on empty storage with one configured
task, after which the second tick is a no-op. -/
theorem checkActiveTasks_idempotent_witness :
    checkActiveTasks (fun _ => true) (fun _ => none) ["a"]
      { cronTasks := [], currentChecksum := none } =
      .ok { cronTasks := [], currentChecksum := some (tasksChecksum [defaultTask "a"]) } ∧
    checkActiveTasks (fun _ => true) (fun _ => none) ["a"]
      { cronTasks := [], currentChecksum := some (tasksChecksum [defaultTask "a"]) } =
      .ok { cronTasks := [], currentChecksum := some (tasksChecksum [defaultTask "a"]) } := by
  have h1 : checkActiveTasks (fun _ => true) (fun _ => none) ["a"]
      { cronTasks := [], currentChecksum := none } =
      .ok { cronTasks := [], currentChecksum := some (tasksChecksum [defaultTask "a"]) } := by
    rfl
  exact ⟨h1, checkActiveTasks_idempotent.1 _ _ _ _ _ h1⟩

/-- C2: On a fingerprint change the tick stops every handle in the timer
list, replaces the stored fingerprint, and appends exactly one fresh timer
per enabled task whose cron expression is present, non-empty and accepted
by the cron library; a task with an empty expression gets no timer and
raises no error, and a task the cron library rejects is skipped without
affecting the timers of the remaining tasks. -/
theorem checkActiveTasks_on_change :
    ∀ (vc : String → Bool) (st : Storage) (names : List String)
      (s : ReconcilerState) (ts : List Task),
      getTasks st names = .ok ts →
      some (tasksChecksum ts) ≠ s.currentChecksum →
      checkActiveTasks vc st names s = .ok {
          currentChecksum := some (tasksChecksum ts)
          cronTasks := s.cronTasks.map stopTimer ++
            (ts.filter (schedulable vc)).map (fun t => { task := t, stopped := false }) } ∧
      (∀ t ∈ ts, t.cronScheduler = some "" → timerFor vc t = none) := by
  intro vc st names s ts hg hc
  refine ⟨?_, ?_⟩
  · rw [checkActiveTasks_ok_eq vc st names s ts hg, if_neg hc,
      foldl_startTaskCron, filterMap_timerFor]
  · intro t _ hcr
    simp [timerFor, hcr]

/-- C2 witness: storage holding one enabled task with a valid cron; the
tick stops the one pre-existing handle and appends one fresh timer. -/
theorem checkActiveTasks_on_change_witness :
    getTasks witnessStorageA ["a"] = .ok [witnessTaskA] ∧
    some (tasksChecksum [witnessTaskA]) ≠
      (ReconcilerState.mk [Timer.mk (defaultTask "old") false] none).currentChecksum ∧
    checkActiveTasks (fun _ => true) witnessStorageA ["a"]
      { cronTasks := [Timer.mk (defaultTask "old") false], currentChecksum := none } =
      .ok {
        currentChecksum := some (tasksChecksum [witnessTaskA])
        cronTasks := [Timer.mk (defaultTask "old") true, Timer.mk witnessTaskA false] } := by
  have hg : getTasks witnessStorageA ["a"] = .ok [witnessTaskA] := by rfl
  have hc : some (tasksChecksum [witnessTaskA]) ≠
      (ReconcilerState.mk [Timer.mk (defaultTask "old") false] none).currentChecksum := by
    simp
  refine ⟨hg, hc, ?_⟩
  have h := (checkActiveTasks_on_change (fun _ => true) witnessStorageA ["a"]
    { cronTasks := [Timer.mk (defaultTask "old") false], currentChecksum := none }
    [witnessTaskA] hg hc).1
  rw [h]
  rfl

/-- C9: the timer list is never pruned.  A successful tick either leaves
`cronTasks` untouched or replaces it with the stopped old handles followed
by the new timers; in particular its length never decreases, so the list
keeps every handle ever created. -/
theorem cronTasks_never_pruned :
    ∀ (vc : String → Bool) (st : Storage) (names : List String)
      (s s₁ : ReconcilerState),
      checkActiveTasks vc st names s = .ok s₁ →
      (s₁.cronTasks = s.cronTasks ∨
        ∃ newTimers, s₁.cronTasks = s.cronTasks.map stopTimer ++ newTimers) ∧
      s.cronTasks.length ≤ s₁.cronTasks.length := by
  intro vc st names s s₁ h
  cases hg : getTasks st names with
  | error e =>
    rw [checkActiveTasks_error_eq vc st names s e hg] at h
    exact absurd h (by simp)
  | ok ts =>
    rw [checkActiveTasks_ok_eq vc st names s ts hg] at h
    by_cases hc : some (tasksChecksum ts) = s.currentChecksum
    · rw [if_pos hc] at h
      simp only [Except.ok.injEq] at h
      subst h
      exact ⟨Or.inl rfl, le_refl _⟩
    · rw [if_neg hc] at h
      simp only [Except.ok.injEq] at h
      subst h
      refine ⟨Or.inr ⟨ts.filterMap (timerFor vc), ?_⟩, ?_⟩
      · simp [foldl_startTaskCron]
      · simp [foldl_startTaskCron]

/-- C9 witness: a concrete changed tick that keeps the old (now stopped)
handle and appends a new one. -/
theorem cronTasks_never_pruned_witness :
    checkActiveTasks (fun _ => true) witnessStorageA ["a"]
      { cronTasks := [Timer.mk (defaultTask "old") false], currentChecksum := none } =
      .ok {
        currentChecksum := some (tasksChecksum [witnessTaskA])
        cronTasks := [Timer.mk (defaultTask "old") true, Timer.mk witnessTaskA false] } ∧
    ([Timer.mk (defaultTask "old") false] : List Timer).length ≤
      ([Timer.mk (defaultTask "old") true, Timer.mk witnessTaskA false] : List Timer).length := by
  have h1 : checkActiveTasks (fun _ => true) witnessStorageA ["a"]
      { cronTasks := [Timer.mk (defaultTask "old") false], currentChecksum := none } =
      .ok {
        currentChecksum := some (tasksChecksum [witnessTaskA])
        cronTasks := [Timer.mk (defaultTask "old") true, Timer.mk witnessTaskA false] } := by
    rfl
  exact ⟨h1, (cronTasks_never_pruned _ _ _ _ _ h1).2⟩

/-- C8: `getTask` never errors on missing keys.  When every one of the
task fields is absent from storage the decode succeeds and yields the
documented defaults (`rebootOnErrors` false, `skipNotify` false, `beta`
false, `enabled` true, `maxStats` 5, `batteryThreshold` 30,
`calendarDaysInFuture` 14, empty plugin/device/entity lists), and every
field is read under its concatenated `task:<name>:<field>` key. -/
theorem getTask_defaults :
    ∀ (taskName : String) (storage : Storage),
      (∀ k ∈ taskKeyList taskName, storage k = none) →
      getTask storage taskName = .ok (defaultTask taskName) ∧
      (getTaskKeys taskName).taskTypeKey = "task:" ++ taskName ++ ":type" ∧
      (getTaskKeys taskName).taskDevicesKey = "task:" ++ taskName ++ ":devices" ∧
      (getTaskKeys taskName).taskPluginsKey = "task:" ++ taskName ++ ":plugins" ∧
      (getTaskKeys taskName).taskCronKey = "task:" ++ taskName ++ ":cron" ∧
      (getTaskKeys taskName).taskRebootKey = "task:" ++ taskName ++ ":reboot" ∧
      (getTaskKeys taskName).taskEnabledKey = "task:" ++ taskName ++ ":enabled" ∧
      (getTaskKeys taskName).taskSystemDiagnostic = "task:" ++ taskName ++ ":systemDiagnostic" ∧
      (getTaskKeys taskName).taskBetaKey = "task:" ++ taskName ++ ":beta" ∧
      (getTaskKeys taskName).taskMaxStatsKey = "task:" ++ taskName ++ ":maxStats" ∧
      (getTaskKeys taskName).taskSkipNotify = "task:" ++ taskName ++ ":skipNotify" ∧
      (getTaskKeys taskName).taskCheckAllPluginsVersion = "task:" ++ taskName ++ ":checkAllPlugins" ∧
      (getTaskKeys taskName).taskBatteryThreshold = "task:" ++ taskName ++ ":batteryThreshold" ∧
      (getTaskKeys taskName).taskEntitiesToAlwaysReport =
        "task:" ++ taskName ++ ":entitiesToAlwaysReport" ∧
      (getTaskKeys taskName).taskEntitiesToExclude = "task:" ++ taskName ++ ":entitiesToExclude" ∧
      (getTaskKeys taskName).taskAdditionalNotifiers =
        "task:" ++ taskName ++ ":additionalNotifiers" ∧
      (getTaskKeys taskName).taskCalendarEntity = "task:" ++ taskName ++ ":calendarEntity" ∧
      (getTaskKeys taskName).tasksUnavailableTime = "task:" ++ taskName ++ ":tasksUnavailableTime" ∧
      (getTaskKeys taskName).taskCalendarDaysInFuture =
        "task:" ++ taskName ++ ":calendarDaysInFuture" := by
  intro taskName storage h
  have htype : storage (getTaskKeys taskName).taskTypeKey = none := h _ (by simp [taskKeyList])
  have hdev : storage (getTaskKeys taskName).taskDevicesKey = none := h _ (by simp [taskKeyList])
  have hplug : storage (getTaskKeys taskName).taskPluginsKey = none := h _ (by simp [taskKeyList])
  have hcron : storage (getTaskKeys taskName).taskCronKey = none := h _ (by simp [taskKeyList])
  have hreb : storage (getTaskKeys taskName).taskRebootKey = none := h _ (by simp [taskKeyList])
  have hen : storage (getTaskKeys taskName).taskEnabledKey = none := h _ (by simp [taskKeyList])
  have hsys : storage (getTaskKeys taskName).taskSystemDiagnostic = none :=
    h _ (by simp [taskKeyList])
  have hbeta : storage (getTaskKeys taskName).taskBetaKey = none := h _ (by simp [taskKeyList])
  have hmax : storage (getTaskKeys taskName).taskMaxStatsKey = none := h _ (by simp [taskKeyList])
  have hskip : storage (getTaskKeys taskName).taskSkipNotify = none := h _ (by simp [taskKeyList])
  have hchk : storage (getTaskKeys taskName).taskCheckAllPluginsVersion = none :=
    h _ (by simp [taskKeyList])
  have hbat : storage (getTaskKeys taskName).taskBatteryThreshold = none :=
    h _ (by simp [taskKeyList])
  have hear : storage (getTaskKeys taskName).taskEntitiesToAlwaysReport = none :=
    h _ (by simp [taskKeyList])
  have hexc : storage (getTaskKeys taskName).taskEntitiesToExclude = none :=
    h _ (by simp [taskKeyList])
  have haddn : storage (getTaskKeys taskName).taskAdditionalNotifiers = none :=
    h _ (by simp [taskKeyList])
  have hcalent : storage (getTaskKeys taskName).taskCalendarEntity = none :=
    h _ (by simp [taskKeyList])
  have hunav : storage (getTaskKeys taskName).tasksUnavailableTime = none :=
    h _ (by simp [taskKeyList])
  have hcal : storage (getTaskKeys taskName).taskCalendarDaysInFuture = none :=
    h _ (by simp [taskKeyList])
  refine ⟨?_, rfl, rfl, rfl, rfl, rfl, rfl, rfl, rfl, rfl, rfl, rfl, rfl, rfl, rfl, rfl,
    rfl, rfl, rfl⟩
  simp only [getTask]
  rw [htype, hcron, hreb, hskip, hsys, hbeta, hplug, hdev, haddn, hen, hchk, hmax,
    hear, hexc, hbat, hunav, hcal, hcalent]
  rfl

/-- C8 witness: decoding against fully empty storage yields the defaults. -/
theorem getTask_defaults_witness :
    getTask (fun _ => none) "t" = .ok (defaultTask "t") := by
  exact (getTask_defaults "t" (fun _ => none) (fun k _ => rfl)).1

theorem processNpmVersions_pairwise (raws : List String) (distTags : List (String × String))
    (timeOf : String → String) :
    List.Pairwise (fun a b => semverLeP b.version a.version)
      (processNpmVersions raws distTags timeOf) := by
  unfold processNpmVersions
  simp only [List.pairwise_map]
  exact List.pairwise_reverse.mpr (List.sorted_insertionSort semverLeP raws)

/-- C6 counterexample: with `beta = false` the code does not select the
latest non-beta version.  Registry data where the newest version `2.0.0`
is dist-tagged `beta`, `1.9.0` carries no dist-tag and `1.8.0` carries
`latest`: the update check selects `1.8.0`, although `1.9.0` is a strictly
newer version not tagged `beta`. -/
theorem pluginHasUpdate_beta_false_counterexample :
    processNpmVersions ["1.8.0", "2.0.0", "1.9.0"]
        [("latest", "1.8.0"), ("beta", "2.0.0")] (fun _ => "notused") =
      [NpmVersion.mk "2.0.0" "beta" "notused", NpmVersion.mk "1.9.0" "" "notused",
        NpmVersion.mk "1.8.0" "latest" "notused"] ∧
    pluginHasUpdate
        (some [NpmVersion.mk "2.0.0" "beta" "notused", NpmVersion.mk "1.9.0" "" "notused",
          NpmVersion.mk "1.8.0" "latest" "notused"]) "1.0.0" false =
      .ok {
        newVersion := some "1.8.0"
        versions := some [NpmVersion.mk "2.0.0" "beta" "notused",
          NpmVersion.mk "1.9.0" "" "notused", NpmVersion.mk "1.8.0" "latest" "notused"]
        isBeta := false } ∧
    (NpmVersion.mk "1.9.0" "" "notused").tag ≠ "beta" ∧
    semverKey "1.8.0" < semverKey "1.9.0" := by
  refine ⟨by decide, by rfl, by decide, by decide⟩

/-- C6 amended: the selection implemented by `pluginHasUpdate` over
processed registry data.  With `beta = true` it selects the newest
version by semantic-version order regardless of tag; with `beta = false`
it selects the newest version unless that one is dist-tagged `beta`, in
which case it falls back to the version carrying the dist-tag `latest` —
which need not be the latest non-beta version. -/
theorem versionToUse_selection :
    ∀ (raws : List String) (distTags : List (String × String)) (timeOf : String → String)
      (v0 : NpmVersion) (rest : List NpmVersion),
      processNpmVersions raws distTags timeOf = v0 :: rest →
      (versionToUse (v0 :: rest) true = .ok v0 ∧
        ∀ v ∈ processNpmVersions raws distTags timeOf, semverLeP v.version v0.version) ∧
      (v0.tag ≠ "beta" → versionToUse (v0 :: rest) false = .ok v0) ∧
      (v0.tag = "beta" →
        versionToUse (v0 :: rest) false =
          match (v0 :: rest).find? (fun v => v.tag = "latest") with
          | some v => .ok v
          | none => .error "TypeError: versionToUse is undefined") := by
  intro raws distTags timeOf v0 rest h
  have hp := processNpmVersions_pairwise raws distTags timeOf
  rw [h] at hp
  rcases List.pairwise_cons.mp hp with ⟨h1, _⟩
  refine ⟨⟨by simp [versionToUse], ?_⟩, ?_, ?_⟩
  · intro v hv
    rw [h] at hv
    rcases List.mem_cons.mp hv with rfl | hv
    · exact le_refl (semverKey v.version)
    · exact h1 v hv
  · intro htag
    simp [versionToUse, htag]
  · intro htag
    simp [versionToUse, htag]

/-- C6 amended witness: the concrete registry data of the counterexample,
where the `beta = true` selection is the newest version `2.0.0` and
`1.9.0` is semver-below it. -/
theorem versionToUse_selection_witness :
    versionToUse [NpmVersion.mk "2.0.0" "beta" "notused", NpmVersion.mk "1.9.0" "" "notused",
        NpmVersion.mk "1.8.0" "latest" "notused"] true =
      .ok (NpmVersion.mk "2.0.0" "beta" "notused") ∧
    semverLeP "1.9.0" "2.0.0" := by
  have h := versionToUse_selection ["1.8.0", "2.0.0", "1.9.0"]
    [("latest", "1.8.0"), ("beta", "2.0.0")] (fun _ => "notused")
    (NpmVersion.mk "2.0.0" "beta" "notused")
    [NpmVersion.mk "1.9.0" "" "notused", NpmVersion.mk "1.8.0" "latest" "notused"]
    (by decide)
  exact ⟨h.1.1, h.1.2 (NpmVersion.mk "1.9.0" "" "notused") (by decide)⟩

/-- C7 counterexample: the cluster worker section of the snapshot is not
sorted descending by count.  With two workers whose fork counts are 1 and
2 in source order, the rendered workers section is `[w1: 1, w2: 2]`,
which ascends. -/
theorem getPluginStats_cluster_unsorted_counterexample :
    (getPluginStats statsEnvC 5).cluster =
      some (ClusterStats.mk [StatEntry.mk "w1" 1, StatEntry.mk "w2" 2]
        [StatEntry.mk "D" 2, StatEntry.mk "D" 1]) ∧
    ¬ List.Pairwise statCountGe [StatEntry.mk "w1" 1, StatEntry.mk "w2" 2] := by
  exact ⟨by rfl, by decide⟩

/-- C7 amended: every section of the snapshot holds at most `maxStats`
entries; the RPC-object, connection and pending-result sections are
sorted descending by count; the cluster worker and device sections are
truncated to `maxStats` in source order (not sorted). -/
theorem getPluginStats_sections :
    ∀ (env : StatsEnv) (m : Nat),
      (getPluginStats env m).rpcObjects.length ≤ m ∧
      (getPluginStats env m).connections.length ≤ m ∧
      (getPluginStats env m).pendingResults.length ≤ m ∧
      List.Pairwise statCountGe (getPluginStats env m).rpcObjects ∧
      List.Pairwise statCountGe (getPluginStats env m).connections ∧
      List.Pairwise statCountGe (getPluginStats env m).pendingResults ∧
      ∀ c, (getPluginStats env m).cluster = some c →
        ∃ ws, env.clusterWorkers = some ws ∧
          c.workers = (ws.map (fun w => StatEntry.mk w.name (w.forks.length : Int))).take m ∧
          c.devices = (clusterDevices env ws).take m ∧
          c.workers.length ≤ m ∧ c.devices.length ≤ m := by
  intro env m
  have hsort : ∀ (l : List StatEntry),
      List.Pairwise statCountGe ((List.insertionSort statCountGe l).take m) := fun l =>
    List.Pairwise.sublist (List.take_sublist m _) (List.sorted_insertionSort statCountGe l)
  refine ⟨List.length_take_le m _, List.length_take_le m _, List.length_take_le m _,
    hsort _, hsort _, hsort _, ?_⟩
  intro c hc
  simp only [getPluginStats] at hc
  cases hcw : env.clusterWorkers with
  | none => rw [hcw] at hc; exact absurd hc (by simp)
  | some ws =>
    rw [hcw] at hc
    simp only [Option.map_some', Option.some.injEq] at hc
    refine ⟨ws, rfl, ?_, ?_, ?_, ?_⟩
    · rw [← hc]
    · rw [← hc]
    · rw [← hc]; exact List.length_take_le m _
    · rw [← hc]; exact List.length_take_le m _

/-- C7 amended witness: concrete sections of the counterexample snapshot
are within bounds, the RPC section is sorted, and the cluster sections
are the truncations of the source-order lists. -/
theorem getPluginStats_sections_witness :
    (getPluginStats statsEnvC 5).rpcObjects.length ≤ 5 ∧
    List.Pairwise statCountGe (getPluginStats statsEnvC 5).rpcObjects ∧
    ([StatEntry.mk "w1" 1, StatEntry.mk "w2" 2] : List StatEntry).length ≤ 5 ∧
    ([StatEntry.mk "D" 2, StatEntry.mk "D" 1] : List StatEntry).length ≤ 5 := by
  have h := getPluginStats_sections statsEnvC 5
  obtain ⟨ws, _, _, _, hl1, hl2⟩ := h.2.2.2.2.2.2
    (ClusterStats.mk [StatEntry.mk "w1" 1, StatEntry.mk "w2" 2]
      [StatEntry.mk "D" 2, StatEntry.mk "D" 1]) (by rfl)
  exact ⟨h.1, h.2.2.2.1, hl1, hl2⟩

/-- C10: when the underlying validation completes without throwing,
`runValidate` hands back a plugin whose `validate` and `warnStep` slots
hold exactly the values they held on entry, whatever the validation run
wrote into them. -/
theorem runValidate_restores :
    ∀ (V W E : Type) (env : DiagEnv V W E) (p : DiagPlugin V W)
      (deviceId : Option String) (p2 : DiagPlugin V W) (res : RunValidateRes),
      runValidate env p deviceId = .ok (p2, res) →
      p2.validate = p.validate ∧ p2.warnStep = p.warnStep := by
  intro V W E env p deviceId p2 res h
  unfold runValidate at h
  cases deviceId with
  | none =>
    dsimp only at h
    cases hr : env.validateSystem { p with validate := env.patchedValidate } with
    | error e => rw [hr] at h; exact absurd h (by simp)
    | ok pr =>
      rw [hr] at h
      simp only [Except.ok.injEq, Prod.mk.injEq] at h
      obtain ⟨hp, _⟩ := h
      rw [← hp]
      exact ⟨rfl, rfl⟩
  | some d =>
    dsimp only at h
    cases hr : env.validateDevice { p with validate := env.patchedValidate } d with
    | error e => rw [hr] at h; exact absurd h (by simp)
    | ok pr =>
      rw [hr] at h
      simp only [Except.ok.injEq, Prod.mk.injEq] at h
      obtain ⟨hp, _⟩ := h
      rw [← hp]
      exact ⟨rfl, rfl⟩

/-- C10 witness: a system validation that internally overwrites both
slots (returning `mk 7 8`); `runValidate` still hands back the original
`mk 1 2`. -/
theorem runValidate_restores_witness :
    runValidate
      (DiagEnv.mk (99 : Nat)
        (fun q _ => .ok (q, CollectedSteps.mk [] [] []))
        (fun _ => .ok (DiagPlugin.mk (7 : Nat) (8 : Nat), CollectedSteps.mk [] [] []))
        : DiagEnv Nat Nat String)
      (DiagPlugin.mk 1 2) none =
      .ok (DiagPlugin.mk 1 2, RunValidateRes.mk [] [] [] "All good") ∧
    (DiagPlugin.mk (1 : Nat) (2 : Nat)).validate = (DiagPlugin.mk (1 : Nat) (2 : Nat)).validate ∧
    (DiagPlugin.mk (1 : Nat) (2 : Nat)).warnStep = (DiagPlugin.mk (1 : Nat) (2 : Nat)).warnStep := by
  have h1 : runValidate
      (DiagEnv.mk (99 : Nat)
        (fun q _ => .ok (q, CollectedSteps.mk [] [] []))
        (fun _ => .ok (DiagPlugin.mk (7 : Nat) (8 : Nat), CollectedSteps.mk [] [] []))
        : DiagEnv Nat Nat String)
      (DiagPlugin.mk 1 2) none =
      .ok (DiagPlugin.mk 1 2, RunValidateRes.mk [] [] [] "All good") := by rfl
  have h2 := runValidate_restores Nat Nat String _ _ _ _ _ h1
  exact ⟨h1, h2.1, h2.2⟩

theorem cleanEvent_reboot (sn d : String) : cleanEvent sn (Event.rebootDevice d) :=
  ⟨rfl, rfl, by simp⟩

theorem cleanEvent_install (sn p v : String) : cleanEvent sn (Event.installNpm p v) :=
  ⟨rfl, rfl, by simp⟩

theorem cleanEvent_restartCall (sn p : String) (h1 : p ≠ sn) (h2 : p ≠ "@scrypted/core") :
    cleanEvent sn (Event.restartPluginCall p) := by
  refine ⟨rfl, ?_, by simp [h2]⟩
  simp [isDeferredRestartEvent, h1]

theorem diagStep_events (env : Env) (reb : Bool) (acc : DiagAcc) (did : String) :
    (diagStep env reb acc did).events = acc.events ∨
    (diagStep env reb acc did).events = acc.events ++ [Event.rebootDevice did] := by
  unfold diagStep
  dsimp only
  split
  · exact Or.inr rfl
  · exact Or.inl rfl

theorem diag_fold_events (env : Env) (reb : Bool) :
    ∀ (dids : List String) (acc : DiagAcc),
      ∀ e ∈ (dids.foldl (diagStep env reb) acc).events,
        e ∈ acc.events ∨ ∃ d, e = Event.rebootDevice d := by
  intro dids
  induction dids with
  | nil => intro acc e he; exact Or.inl he
  | cons did rest ih =>
    intro acc e he
    rcases ih (diagStep env reb acc did) e he with h | h
    · rcases diagStep_events env reb acc did with heq | heq
      · rw [heq] at h; exact Or.inl h
      · rw [heq] at h
        rcases List.mem_append.mp h with h2 | h2
        · exact Or.inl h2
        · exact Or.inr ⟨did, List.mem_singleton.mp h2⟩
    · exact Or.inr h

theorem camerasStep_events (env : Env) (acc : DiagAcc) (did : String) :
    (camerasStep env acc did).events = acc.events ++ [Event.rebootDevice did] := rfl

theorem cameras_fold_events (env : Env) :
    ∀ (dids : List String) (acc : DiagAcc),
      ∀ e ∈ (dids.foldl (camerasStep env) acc).events,
        e ∈ acc.events ∨ ∃ d, e = Event.rebootDevice d := by
  intro dids
  induction dids with
  | nil => intro acc e he; exact Or.inl he
  | cons did rest ih =>
    intro acc e he
    rcases ih (camerasStep env acc did) e he with h | h
    · rw [camerasStep_events] at h
      rcases List.mem_append.mp h with h2 | h2
      · exact Or.inl h2
      · exact Or.inr ⟨did, List.mem_singleton.mp h2⟩
    · exact Or.inr h

theorem restartStep_events (env : Env) (acc : RestartAcc) (pid : String) :
    (restartStep env acc pid).events = acc.events ∨
    ∃ p, p ≠ env.selfName ∧ p ≠ "@scrypted/core" ∧
      (restartStep env acc pid).events = acc.events ++ [Event.restartPluginCall p] := by
  unfold restartStep
  dsimp only
  split
  · exact Or.inl rfl
  · next hc =>
    push_neg at hc
    exact Or.inr ⟨(env.pluginById pid).manufacturer, hc.1, hc.2, rfl⟩

theorem restart_fold_events (env : Env) :
    ∀ (pids : List String) (acc : RestartAcc),
      ∀ e ∈ (pids.foldl (restartStep env) acc).events,
        e ∈ acc.events ∨ ∃ p, p ≠ env.selfName ∧ p ≠ "@scrypted/core" ∧
          e = Event.restartPluginCall p := by
  intro pids
  induction pids with
  | nil => intro acc e he; exact Or.inl he
  | cons pid rest ih =>
    intro acc e he
    rcases ih (restartStep env acc pid) e he with h | h
    · rcases restartStep_events env acc pid with heq | ⟨p, hp1, hp2, heq⟩
      · rw [heq] at h; exact Or.inl h
      · rw [heq] at h
        rcases List.mem_append.mp h with h2 | h2
        · exact Or.inl h2
        · exact Or.inr ⟨p, hp1, hp2, List.mem_singleton.mp h2⟩
    · exact Or.inr h

theorem restartStep_flag (env : Env) (acc : RestartAcc) (pid : String) :
    (restartStep env acc pid).shouldSelfRestart = true →
    acc.shouldSelfRestart = true ∨
      (env.pluginById pid).manufacturer = env.selfName ∨
      (env.pluginById pid).manufacturer = "@scrypted/core" := by
  unfold restartStep
  dsimp only
  split
  · next hc => intro _; exact Or.inr hc
  · intro h; exact Or.inl h

theorem restart_fold_flag (env : Env) :
    ∀ (pids : List String) (acc : RestartAcc),
      (pids.foldl (restartStep env) acc).shouldSelfRestart = true →
      acc.shouldSelfRestart = true ∨ ∃ pid ∈ pids,
        (env.pluginById pid).manufacturer = env.selfName ∨
        (env.pluginById pid).manufacturer = "@scrypted/core" := by
  intro pids
  induction pids with
  | nil => intro acc h; exact Or.inl h
  | cons pid rest ih =>
    intro acc h
    rcases ih (restartStep env acc pid) h with h2 | ⟨q, hq, hm⟩
    · rcases restartStep_flag env acc pid h2 with h3 | h3
      · exact Or.inl h3
      · exact Or.inr ⟨pid, List.mem_cons_self _ _, h3⟩
    · exact Or.inr ⟨q, List.mem_cons_of_mem _ hq, hm⟩

theorem updatePlugin_events (versions : Option (List NpmVersion))
    (pluginName currentVersion : String) (beta : Bool) (r : Option HasUpdateRes)
    (evs : List Event) :
    updatePlugin versions pluginName currentVersion beta = .ok (r, evs) →
    evs = [] ∨ ∃ nv, evs = [Event.installNpm pluginName nv] := by
  intro h
  unfold updatePlugin at h
  cases hp : pluginHasUpdate versions currentVersion beta with
  | error e => rw [hp] at h; exact absurd h (by simp)
  | ok res =>
    rw [hp] at h
    dsimp only at h
    cases hv : res.versions with
    | none =>
      rw [hv] at h
      simp only [Except.ok.injEq, Prod.mk.injEq] at h
      exact Or.inl h.2.symm
    | some vs =>
      rw [hv] at h
      cases hn : res.newVersion with
      | some nv =>
        rw [hn] at h
        simp only [Except.ok.injEq, Prod.mk.injEq] at h
        exact Or.inr ⟨nv, h.2.symm⟩
      | none =>
        rw [hn] at h
        simp only [Except.ok.injEq, Prod.mk.injEq] at h
        exact Or.inl h.2.symm

theorem updateLoop_events (env : Env) (beta : Bool) :
    ∀ (pids : List String) (acc : UpdateAcc),
      (∀ acc2, updateLoop env beta pids acc = .ok acc2 →
        ∀ e ∈ acc2.events, e ∈ acc.events ∨ ∃ p v, e = Event.installNpm p v) ∧
      (∀ evs, updateLoop env beta pids acc = .error evs →
        ∀ e ∈ evs, e ∈ acc.events ∨ ∃ p v, e = Event.installNpm p v) := by
  intro pids
  induction pids with
  | nil =>
    intro acc
    constructor
    · intro acc2 h e he
      simp only [updateLoop, Except.ok.injEq] at h
      rw [← h] at he
      exact Or.inl he
    · intro evs h
      exact absurd h (by simp [updateLoop])
  | cons pid rest ih =>
    intro acc
    have step : ∀ (out : Except (List Event) UpdateAcc),
        updateLoop env beta (pid :: rest) acc = out →
        (∀ acc2, out = .ok acc2 →
          ∀ e ∈ acc2.events, e ∈ acc.events ∨ ∃ p v, e = Event.installNpm p v) ∧
        (∀ evs, out = .error evs →
          ∀ e ∈ evs, e ∈ acc.events ∨ ∃ p v, e = Event.installNpm p v) := by
      intro out hout
      rw [← hout]
      clear hout
      simp only [updateLoop]
      cases hu : updatePlugin
          (env.npmVersions (env.pluginById pid).manufacturer)
          (env.pluginById pid).manufacturer (env.pluginById pid).version beta with
      | error e2 =>
        constructor
        · intro acc2 h; exact absurd h (by simp)
        · intro evs h e he
          simp only [Except.error.injEq] at h
          rw [← h] at he
          exact Or.inl he
      | ok pr =>
        rcases pr with ⟨opt, evsU⟩
        cases opt with
        | none =>
          constructor
          · intro acc2 h; exact absurd h (by simp)
          · intro evs h e he
            simp only [Except.error.injEq] at h
            rw [← h] at he
            exact Or.inl he
        | some res =>
          have hstep := ih (UpdateAcc.mk (acc.events ++ evsU)
            (match res.newVersion with
              | some nv => acc.message ++ "[" ++ (env.pluginById pid).manufacturer ++
                  "]: Updated " ++ (env.pluginById pid).version ++ " -> " ++ nv ++
                  betaSuffix res.isBeta
              | none =>
                acc.message ++ "[" ++ (env.pluginById pid).manufacturer ++
                  "]: Already on latest version " ++ (env.pluginById pid).version ++
                  betaSuffix (match (res.versions.getD []).find?
                      (fun it => it.version = (env.pluginById pid).version) with
                    | some ve => ve.tag == "beta"
                    | none => false)))
          have hmem : ∀ e, e ∈ acc.events ++ evsU →
              e ∈ acc.events ∨ ∃ p v, e = Event.installNpm p v := by
            intro e he
            rcases List.mem_append.mp he with h2 | h2
            · exact Or.inl h2
            · rcases updatePlugin_events _ _ _ _ _ _ hu with rfl | ⟨nv, rfl⟩
              · exact absurd h2 (by simp)
              · exact Or.inr ⟨(env.pluginById pid).manufacturer, nv,
                  List.mem_singleton.mp h2⟩
          constructor
          · intro acc2 h e he
            rcases hstep.1 acc2 h e he with h2 | h2
            · exact hmem e h2
            · exact Or.inr h2
          · intro evs h e he
            rcases hstep.2 evs h e he with h2 | h2
            · exact hmem e h2
            · exact Or.inr h2
    exact ⟨fun acc2 h => (step _ rfl).1 acc2 h, fun evs h => (step _ rfl).2 evs h⟩

theorem runUpdatePlugins_events (env : Env) (task : Task) :
    (∀ b, runUpdatePlugins env task = .ok b →
      ∀ e ∈ b.events, ∃ p v, e = Event.installNpm p v) ∧
    (∀ evs, runUpdatePlugins env task = .error evs →
      ∀ e ∈ evs, ∃ p v, e = Event.installNpm p v) := by
  have hloop := updateLoop_events env task.beta task.plugins ⟨[], ""⟩
  have hconv : ∀ (e : Event),
      (e ∈ (UpdateAcc.mk [] "").events ∨ ∃ p v, e = Event.installNpm p v) →
      ∃ p v, e = Event.installNpm p v := by
    intro e h
    rcases h with h | h
    · exact absurd h (by simp)
    · exact h
  constructor
  · intro b hb e he
    unfold runUpdatePlugins at hb
    cases hu : updateLoop env task.beta task.plugins ⟨[], ""⟩ with
    | error evs2 => rw [hu] at hb; exact absurd hb (by simp)
    | ok acc =>
      rw [hu] at hb
      dsimp only at hb
      split at hb
      · split at hb
        · exact absurd hb (by simp)
        · simp only [Except.ok.injEq] at hb
          rw [← hb] at he
          exact hconv e (hloop.1 acc hu e he)
      · simp only [Except.ok.injEq] at hb
        rw [← hb] at he
        exact hconv e (hloop.1 acc hu e he)
  · intro evs hb e he
    unfold runUpdatePlugins at hb
    cases hu : updateLoop env task.beta task.plugins ⟨[], ""⟩ with
    | error evs2 =>
      rw [hu] at hb
      simp only [Except.error.injEq] at hb
      rw [← hb] at he
      exact hconv e (hloop.2 evs2 hu e he)
    | ok acc =>
      rw [hu] at hb
      dsimp only at hb
      split at hb
      · split at hb
        · simp only [Except.error.injEq] at hb
          rw [← hb] at he
          exact hconv e (hloop.1 acc hu e he)
        · exact absurd hb (by simp)
      · exact absurd hb (by simp)

theorem runUpdatePlugins_deferred (env : Env) (task : Task) :
    ∀ b, runUpdatePlugins env task = .ok b → b.deferred = none := by
  intro b hb
  unfold runUpdatePlugins at hb
  cases hu : updateLoop env task.beta task.plugins ⟨[], ""⟩ with
  | error evs2 => rw [hu] at hb; exact absurd hb (by simp)
  | ok acc =>
    rw [hu] at hb
    dsimp only at hb
    split at hb
    · split at hb
      · exact absurd hb (by simp)
      · simp only [Except.ok.injEq] at hb
        rw [← hb]
    · simp only [Except.ok.injEq] at hb
      rw [← hb]

theorem runTomorrowEventsHa_shape (env : Env) (task : Task) :
    (∀ b, runTomorrowEventsHa env task = .ok b → b.events = [] ∧ b.deferred = none) ∧
    (∀ evs, runTomorrowEventsHa env task = .error evs → evs = []) := by
  constructor
  · intro b hb
    unfold runTomorrowEventsHa at hb
    dsimp only at hb
    split at hb
    · exact absurd hb (by simp)
    · split at hb
      · exact absurd hb (by simp)
      · simp only [Except.ok.injEq] at hb
        rw [← hb]
        exact ⟨rfl, rfl⟩
  · intro evs hb
    unfold runTomorrowEventsHa at hb
    dsimp only at hb
    split at hb
    · simp only [Except.error.injEq] at hb
      exact hb.symm
    · split at hb
      · simp only [Except.error.injEq] at hb
        exact hb.symm
      · exact absurd hb (by simp)

set_option maxHeartbeats 2000000 in
theorem runBranch_events_clean (env : Env) (task : Task) :
    (∀ b, runBranch env task = .ok b → ∀ e ∈ b.events, cleanEvent env.selfName e) ∧
    (∀ evs, runBranch env task = .error evs → ∀ e ∈ evs, cleanEvent env.selfName e) := by
  constructor
  · intro b hb e he
    unfold runBranch at hb
    split_ifs at hb
    · -- Diagnostics
      simp only [Except.ok.injEq] at hb
      rw [← hb] at he
      have he2 : e ∈ (task.devices.foldl (diagStep env task.rebootOnErrors)
        (DiagAcc.mk [] "")).events := he
      rcases diag_fold_events env task.rebootOnErrors task.devices _ e he2 with h | ⟨d, rfl⟩
      · exact absurd h (by simp)
      · exact cleanEvent_reboot _ _
    · -- RestartPlugins
      simp only [Except.ok.injEq] at hb
      rw [← hb] at he
      have he2 : e ∈ (task.plugins.foldl (restartStep env)
        (RestartAcc.mk [] "" false)).events := he
      rcases restart_fold_events env task.plugins _ e he2 with h | ⟨p, hp1, hp2, rfl⟩
      · exact absurd h (by simp)
      · exact cleanEvent_restartCall _ _ hp1 hp2
    · -- UpdatePlugins
      rcases (runUpdatePlugins_events env task).1 b hb e he with ⟨p, v, rfl⟩
      exact cleanEvent_install _ _ _
    · -- ReportPluginsStatus
      simp only [Except.ok.injEq] at hb
      rw [← hb] at he
      exact absurd (show e ∈ ([] : List Event) from he) (by simp)
    · -- RestartCameras
      simp only [Except.ok.injEq] at hb
      rw [← hb] at he
      have he2 : e ∈ (task.devices.foldl (camerasStep env) (DiagAcc.mk [] "")).events := he
      rcases cameras_fold_events env task.devices _ e he2 with h | ⟨d, rfl⟩
      · exact absurd h (by simp)
      · exact cleanEvent_reboot _ _
    · -- ReportHaBatteryStatus
      simp only [Except.ok.injEq] at hb
      rw [← hb] at he
      exact absurd (show e ∈ ([] : List Event) from he) (by simp)
    · -- ReportHaUnavailableEntities
      simp only [Except.ok.injEq] at hb
      rw [← hb] at he
      exact absurd (show e ∈ ([] : List Event) from he) (by simp)
    · -- ReportHaConsumables
      simp only [Except.ok.injEq] at hb
      rw [← hb] at he
      exact absurd (show e ∈ ([] : List Event) from he) (by simp)
    · -- TomorrowEventsHa
      have hsh := ((runTomorrowEventsHa_shape env task).1 b hb).1
      rw [hsh] at he
      exact absurd he (by simp)
    · -- RestartScrypted
      simp only [Except.ok.injEq] at hb
      rw [← hb] at he
      exact absurd (show e ∈ ([] : List Event) from he) (by simp)
    · -- unknown type
      simp only [Except.ok.injEq] at hb
      rw [← hb] at he
      exact absurd (show e ∈ ([] : List Event) from he) (by simp)
  · intro evs hb e he
    unfold runBranch at hb
    split_ifs at hb
    · rcases (runUpdatePlugins_events env task).2 evs hb e he with ⟨p, v, rfl⟩
      exact cleanEvent_install _ _ _
    · have hsh := (runTomorrowEventsHa_shape env task).2 evs hb
      rw [hsh] at he
      exact absurd he (by simp)

set_option maxHeartbeats 2000000 in
theorem runBranch_deferred (env : Env) (task : Task) :
    ∀ b, runBranch env task = .ok b →
      (b.deferred = none ∨
        b.deferred = some [Event.restartPluginCall env.selfName] ∨
        b.deferred = some [Event.serviceControlExit, Event.serviceControlRestart]) ∧
      (b.deferred ≠ none →
        task.type = some "RestartScrypted" ∨
        (task.type = some "RestartPlugins" ∧ ∃ pid ∈ task.plugins,
          (env.pluginById pid).manufacturer = env.selfName ∨
          (env.pluginById pid).manufacturer = "@scrypted/core")) := by
  intro b hb
  unfold runBranch at hb
  split_ifs at hb with h1 h2 h3 h4 h5 h6 h7 h8 h9 h10
  · -- Diagnostics
    simp only [Except.ok.injEq] at hb
    have hd : b.deferred = none := by rw [← hb]; rfl
    exact ⟨Or.inl hd, fun hne => absurd hd hne⟩
  · -- RestartPlugins
    simp only [Except.ok.injEq] at hb
    by_cases hf : (task.plugins.foldl (restartStep env)
        (RestartAcc.mk [] "" false)).shouldSelfRestart = true
    · have hd : b.deferred = some [Event.restartPluginCall env.selfName] := by
        rw [← hb]
        show (runRestartPlugins env task).deferred = _
        unfold runRestartPlugins
        dsimp only
        rw [if_pos hf]
      refine ⟨Or.inr (Or.inl hd), fun _ => Or.inr ⟨h2, ?_⟩⟩
      rcases restart_fold_flag env task.plugins _ hf with h | h
      · exact absurd h (by simp)
      · exact h
    · have hd : b.deferred = none := by
        rw [← hb]
        show (runRestartPlugins env task).deferred = none
        unfold runRestartPlugins
        dsimp only
        rw [if_neg hf]
      exact ⟨Or.inl hd, fun hne => absurd hd hne⟩
  · -- UpdatePlugins
    have hd := runUpdatePlugins_deferred env task b hb
    exact ⟨Or.inl hd, fun hne => absurd hd hne⟩
  · simp only [Except.ok.injEq] at hb
    have hd : b.deferred = none := by rw [← hb]; rfl
    exact ⟨Or.inl hd, fun hne => absurd hd hne⟩
  · simp only [Except.ok.injEq] at hb
    have hd : b.deferred = none := by rw [← hb]; rfl
    exact ⟨Or.inl hd, fun hne => absurd hd hne⟩
  · simp only [Except.ok.injEq] at hb
    have hd : b.deferred = none := by rw [← hb]; rfl
    exact ⟨Or.inl hd, fun hne => absurd hd hne⟩
  · simp only [Except.ok.injEq] at hb
    have hd : b.deferred = none := by rw [← hb]; rfl
    exact ⟨Or.inl hd, fun hne => absurd hd hne⟩
  · simp only [Except.ok.injEq] at hb
    have hd : b.deferred = none := by rw [← hb]; rfl
    exact ⟨Or.inl hd, fun hne => absurd hd hne⟩
  · -- TomorrowEventsHa
    have hd := ((runTomorrowEventsHa_shape env task).1 b hb).2
    exact ⟨Or.inl hd, fun hne => absurd hd hne⟩
  · -- RestartScrypted
    simp only [Except.ok.injEq] at hb
    have hd : b.deferred = some [Event.serviceControlExit, Event.serviceControlRestart] := by
      rw [← hb]; rfl
    exact ⟨Or.inr (Or.inr hd), fun _ => Or.inl h10⟩
  · simp only [Except.ok.injEq] at hb
    have hd : b.deferred = none := by rw [← hb]
    exact ⟨Or.inl hd, fun hne => absurd hd hne⟩

theorem executeTask_ok_eq (env : Env) (task : Task) (b : BranchOut)
    (hb : runBranch env task = .ok b) :
    executeTask env task = .ok {
      events := b.events ++
        (if !task.skipNotify && !b.forceStop then
          (if !task.additionalNotifiers.isEmpty then task.additionalNotifiers
            else match env.notifier with
              | some n => [n]
              | none => []).map
            (fun nid => Event.sendNotification nid task.name b.message b.priority)
        else []) ++ b.deferred.getD []
      message := b.message
      priority := b.priority
      forceStop := b.forceStop } := by
  unfold executeTask
  rw [hb]

theorem executeTask_err_eq (env : Env) (task : Task) (evs : List Event)
    (hb : runBranch env task = .error evs) :
    executeTask env task = .err evs := by
  unfold executeTask
  rw [hb]

theorem executeTask_trace (env : Env) (task : Task) (b : BranchOut)
    (hb : runBranch env task = .ok b) :
    ∃ N, traceOf (executeTask env task) = b.events ++ N ++ b.deferred.getD [] ∧
      ∀ e ∈ N, e.isNotification = true ∧
        isDeferredRestartEvent env.selfName e = false ∧
        e ≠ Event.restartPluginCall "@scrypted/core" := by
  refine ⟨if !task.skipNotify && !b.forceStop then
      (if !task.additionalNotifiers.isEmpty then task.additionalNotifiers
        else match env.notifier with
          | some n => [n]
          | none => []).map
        (fun nid => Event.sendNotification nid task.name b.message b.priority)
    else [], ?_, ?_⟩
  · rw [executeTask_ok_eq env task b hb]
    rfl
  · intro e he
    split at he
    · rcases List.mem_map.mp he with ⟨nid, _, rfl⟩
      exact ⟨rfl, rfl, by simp⟩
    · exact absurd he (by simp)

theorem deferred_members (env : Env) (task : Task) (b : BranchOut)
    (hb : runBranch env task = .ok b) :
    ∀ e ∈ b.deferred.getD [], e.isNotification = false ∧
      (env.selfName ≠ "@scrypted/core" → e ≠ Event.restartPluginCall "@scrypted/core") := by
  intro e he
  rcases (runBranch_deferred env task b hb).1 with hd | hd | hd
  · rw [hd] at he
    exact absurd he (by simp)
  · rw [hd] at he
    simp only [Option.getD_some, List.mem_singleton] at he
    subst he
    exact ⟨rfl, fun hsn heq => hsn (Event.restartPluginCall.inj heq)⟩
  · rw [hd] at he
    simp only [Option.getD_some, List.mem_cons, List.mem_singleton,
      List.not_mem_nil, or_false] at he
    rcases he with rfl | rfl
    · exact ⟨rfl, fun _ => by simp⟩
    · exact ⟨rfl, fun _ => by simp⟩

theorem unavailStep_flag (env : Env) (task : Task) (acc : UnavailAcc) (e : HaEntity) :
    (unavailStep env task acc e).atLeast1Unavailable =
      (acc.atLeast1Unavailable || unavailCond env task e) := by
  unfold unavailStep
  dsimp only
  split
  · next hc => simp [hc]
  · next hc =>
    rw [Bool.not_eq_true] at hc
    simp [hc]

theorem unavail_fold_flag (env : Env) (task : Task) :
    ∀ (es : List HaEntity) (acc : UnavailAcc),
      (es.foldl (unavailStep env task) acc).atLeast1Unavailable =
        (acc.atLeast1Unavailable || es.any (unavailCond env task)) := by
  intro es
  induction es with
  | nil => intro acc; simp
  | cons e rest ih =>
    intro acc
    simp [List.foldl_cons, ih, unavailStep_flag, List.any_cons, Bool.or_assoc]

theorem consumStep_flag (alwaysReport : List String) (acc : ConsumAcc) (e : HaEntity) :
    (consumStep alwaysReport acc e).atLeast1Problem =
      (acc.atLeast1Problem || consumableProblem alwaysReport e) := by
  by_cases h1 : (alwaysReport.contains e.entity_id) = true
  · have hm : e.entity_id ∈ alwaysReport := by simpa using h1
    by_cases h2 : (e.attributes.unit_of_measurement == some "%") = true
    · by_cases h3 : numLt (jsNumState e) 10 = true
      · simp [consumStep, consumableProblem, h1, hm, h2, h3]
      · rw [Bool.not_eq_true] at h3
        simp [consumStep, consumableProblem, h1, hm, h2, h3]
    · rw [Bool.not_eq_true] at h2
      by_cases h4 : (e.attributes.unit_of_measurement == some "d") = true
      · by_cases h5 : numLe (jsNumState e) 3 = true
        · simp [consumStep, consumableProblem, h1, hm, h2, h4, h5]
        · rw [Bool.not_eq_true] at h5
          simp [consumStep, consumableProblem, h1, hm, h2, h4, h5]
      · rw [Bool.not_eq_true] at h4
        by_cases h6 : (e.attributes.device_class == some "problem") = true
        · by_cases h7 : (e.state == some "on") = true
          · simp [consumStep, consumableProblem, h1, hm, h2, h4, h6, h7]
          · rw [Bool.not_eq_true] at h7
            simp [consumStep, consumableProblem, h1, hm, h2, h4, h6, h7]
        · rw [Bool.not_eq_true] at h6
          simp [consumStep, consumableProblem, h1, hm, h2, h4, h6]
  · rw [Bool.not_eq_true] at h1
    have hm : ¬(e.entity_id ∈ alwaysReport) := by simpa using h1
    simp [consumStep, consumableProblem, h1, hm]

theorem consum_fold_flag (alwaysReport : List String) :
    ∀ (es : List HaEntity) (acc : ConsumAcc),
      (es.foldl (consumStep alwaysReport) acc).atLeast1Problem =
        (acc.atLeast1Problem || es.any (consumableProblem alwaysReport)) := by
  intro es
  induction es with
  | nil => intro acc; simp
  | cons e rest ih =>
    intro acc
    simp [List.foldl_cons, ih, consumStep_flag, List.any_cons, Bool.or_assoc]

theorem filter_isEmpty_eq_not_any (l : List HaEntity) (p : HaEntity → Bool) :
    (l.filter p).isEmpty = !l.any p := by
  induction l with
  | nil => rfl
  | cons x xs ih =>
    by_cases h : p x = true
    · simp [List.filter_cons, h]
    · rw [Bool.not_eq_true] at h
      simp [List.filter_cons, h, ih]

theorem runBranch_battery (env : Env) (task : Task)
    (h : task.type = some "ReportHaBatteryStatus") :
    runBranch env task = .ok (runReportHaBatteryStatus env task) := by
  unfold runBranch
  rw [h]
  rfl

theorem runBranch_unavail (env : Env) (task : Task)
    (h : task.type = some "ReportHaUnavailableEntities") :
    runBranch env task = .ok (runReportHaUnavailableEntities env task) := by
  unfold runBranch
  rw [h]
  rfl

theorem runBranch_consum (env : Env) (task : Task)
    (h : task.type = some "ReportHaConsumables") :
    runBranch env task = .ok (runReportHaConsumables env task) := by
  unfold runBranch
  rw [h]
  rfl

theorem runBranch_tomorrow (env : Env) (task : Task)
    (h : task.type = some "TomorrowEventsHa") :
    runBranch env task = runTomorrowEventsHa env task := by
  unfold runBranch
  rw [h]
  rfl

/-- C3: deferred actions run only after notification dispatch.  The trace
of every execution splits into a first part with no deferred-restart
event and a second part with no notification (so every deferred restart
comes after every notification attempt); a deferred-restart event occurs
only for RestartScrypted or for RestartPlugins targeting the host package
itself (or `@scrypted/core`); and the loop never performs an immediate
restart call on `@scrypted/core` — in particular the host plugin package
is never restarted inside the loop, only by the deferred action. -/
theorem deferred_after_notification :
    ∀ (env : Env) (task : Task),
      (∃ pre post, traceOf (executeTask env task) = pre ++ post ∧
        (∀ e ∈ pre, isDeferredRestartEvent env.selfName e = false) ∧
        (∀ e ∈ post, e.isNotification = false)) ∧
      ((∃ e ∈ traceOf (executeTask env task),
          isDeferredRestartEvent env.selfName e = true) →
        task.type = some "RestartScrypted" ∨
        (task.type = some "RestartPlugins" ∧ ∃ pid ∈ task.plugins,
          (env.pluginById pid).manufacturer = env.selfName ∨
          (env.pluginById pid).manufacturer = "@scrypted/core")) ∧
      (env.selfName ≠ "@scrypted/core" →
        Event.restartPluginCall "@scrypted/core" ∉ traceOf (executeTask env task)) := by
  intro env task
  cases hb : runBranch env task with
  | error evs =>
    have hclean := (runBranch_events_clean env task).2 evs hb
    have htr : traceOf (executeTask env task) = evs := by
      rw [executeTask_err_eq env task evs hb]
      rfl
    rw [htr]
    refine ⟨⟨evs, [], by simp, ?_, by simp⟩, ?_, ?_⟩
    · intro e he
      exact (hclean e he).2.1
    · rintro ⟨e, he, hdk⟩
      rw [(hclean e he).2.1] at hdk
      exact Bool.noConfusion hdk
    · intro _ hmem
      exact (hclean _ hmem).2.2 rfl
  | ok b =>
    obtain ⟨N, htr, hN⟩ := executeTask_trace env task b hb
    have hclean := (runBranch_events_clean env task).1 b hb
    have hdefm := deferred_members env task b hb
    rw [htr]
    refine ⟨⟨b.events ++ N, b.deferred.getD [], rfl, ?_, ?_⟩, ?_, ?_⟩
    · intro e he
      rcases List.mem_append.mp he with h | h
      · exact (hclean e h).2.1
      · exact (hN e h).2.1
    · intro e he
      exact (hdefm e he).1
    · rintro ⟨e, he, hdk⟩
      rcases List.mem_append.mp he with h2 | h2
      · rcases List.mem_append.mp h2 with h3 | h3
        · rw [(hclean e h3).2.1] at hdk
          exact Bool.noConfusion hdk
        · rw [(hN e h3).2.1] at hdk
          exact Bool.noConfusion hdk
      · have hne : b.deferred ≠ none := by
          intro hnone
          rw [hnone] at h2
          exact absurd h2 (by simp)
        exact (runBranch_deferred env task b hb).2 hne
    · intro hsn hmem
      rcases List.mem_append.mp hmem with h2 | h2
      · rcases List.mem_append.mp h2 with h3 | h3
        · exact (hclean _ h3).2.2 rfl
        · exact (hN _ h3).2.2 rfl
      · exact (hdefm _ h2).2 hsn rfl

/-- C3 witness: a RestartScrypted execution against the concrete
environment notifies first and only then emits the deferred service
restart; no `@scrypted/core` restart call appears. -/
theorem deferred_after_notification_witness :
    Event.restartPluginCall "@scrypted/core" ∉
      traceOf (executeTask trivialEnv (taskOfType "RestartScrypted")) ∧
    traceOf (executeTask trivialEnv (taskOfType "RestartScrypted")) =
      [Event.sendNotification "notifier1" "t" "Scrypted restarted" none,
        Event.serviceControlExit, Event.serviceControlRestart] := by
  refine ⟨(deferred_after_notification trivialEnv (taskOfType "RestartScrypted")).2.2
    (by decide), by rfl⟩

/-- C4: no notification is sent when `skipNotify` or the branch set
`forceStop`; otherwise exactly one notification per resolved target — the
additional notifiers when configured, else the single default notifier —
each carrying the task name as title and the accumulated message as
body. -/
theorem notification_policy :
    ∀ (env : Env) (task : Task) (r : ExecResult),
      executeTask env task = .ok r →
      ((task.skipNotify = true ∨ r.forceStop = true) → notificationsOf r.events = []) ∧
      (task.skipNotify = false → r.forceStop = false →
        notificationsOf r.events =
          (if task.additionalNotifiers.isEmpty then
              (match env.notifier with
                | some n => [n]
                | none => [])
            else task.additionalNotifiers).map
            (fun nid => Event.sendNotification nid task.name r.message r.priority)) := by
  intro env task r hr
  cases hb : runBranch env task with
  | error evs =>
    rw [executeTask_err_eq env task evs hb] at hr
    exact ExecOutcome.noConfusion hr
  | ok b =>
    rw [executeTask_ok_eq env task b hb] at hr
    simp only [ExecOutcome.ok.injEq] at hr
    subst hr
    have hclean := (runBranch_events_clean env task).1 b hb
    have hdefm := deferred_members env task b hb
    have hbfilter : b.events.filter Event.isNotification = [] :=
      List.filter_eq_nil_iff.mpr (fun e he => by simp [(hclean e he).1])
    have hdfilter : (b.deferred.getD []).filter Event.isNotification = [] :=
      List.filter_eq_nil_iff.mpr (fun e he => by simp [(hdefm e he).1])
    constructor
    · intro hcase
      have hcond : (!task.skipNotify && !b.forceStop) = false := by
        rcases hcase with h | h
        · simp [h]
        · simp [show b.forceStop = true from h]
      show ((b.events ++ _ ++ b.deferred.getD []).filter Event.isNotification) = []
      simp [List.filter_append, hbfilter, hdfilter, hcond]
    · intro hskip hforce
      have hcond : (!task.skipNotify && !b.forceStop) = true := by
        simp [hskip, show b.forceStop = false from hforce]
      have hmapfilter : ∀ (l : List String),
          (l.map (fun nid => Event.sendNotification nid task.name b.message b.priority)).filter
            Event.isNotification =
          l.map (fun nid => Event.sendNotification nid task.name b.message b.priority) :=
        fun l => List.filter_eq_self.mpr (fun e he => by
          rcases List.mem_map.mp he with ⟨nid, _, rfl⟩
          rfl)
      show ((b.events ++ _ ++ b.deferred.getD []).filter Event.isNotification) = _
      rw [List.filter_append, List.filter_append, hbfilter, hdfilter, hcond]
      simp only [if_true, List.nil_append, List.append_nil]
      by_cases hadd : task.additionalNotifiers.isEmpty = true
      · simp [hadd, hmapfilter]
      · rw [Bool.not_eq_true] at hadd
        simp [hadd, hmapfilter]

/-- C4 witness: a RestartScrypted execution with one configured default
notifier sends exactly one notification titled with the task name and
bodied with the accumulated message. -/
theorem notification_policy_witness :
    executeTask trivialEnv (taskOfType "RestartScrypted") =
      .ok (ExecResult.mk
        [Event.sendNotification "notifier1" "t" "Scrypted restarted" none,
          Event.serviceControlExit, Event.serviceControlRestart]
        "Scrypted restarted" none false) ∧
    notificationsOf [Event.sendNotification "notifier1" "t" "Scrypted restarted" none,
        Event.serviceControlExit, Event.serviceControlRestart] =
      [Event.sendNotification "notifier1" "t" "Scrypted restarted" none] := by
  have h1 : executeTask trivialEnv (taskOfType "RestartScrypted") =
      .ok (ExecResult.mk
        [Event.sendNotification "notifier1" "t" "Scrypted restarted" none,
          Event.serviceControlExit, Event.serviceControlRestart]
        "Scrypted restarted" none false) := by rfl
  have h2 := (notification_policy trivialEnv (taskOfType "RestartScrypted") _ h1).2 rfl rfl
  exact ⟨h1, h2⟩

/-- C5: with an empty result set, the ReportHaUnavailableEntities,
ReportHaConsumables and TomorrowEventsHa reports set `forceStop`
(suppressing notification), and more precisely `forceStop` equals the
emptiness of the respective result set; ReportHaBatteryStatus never sets
`forceStop`. -/
theorem report_forceStop :
    (∀ (env : Env) (task : Task), task.type = some "ReportHaBatteryStatus" →
      execForceStop (executeTask env task) = some false) ∧
    (∀ (env : Env) (task : Task), task.type = some "ReportHaUnavailableEntities" →
      execForceStop (executeTask env task) =
        some (env.haStates.filter (unavailCond env task)).isEmpty) ∧
    (∀ (env : Env) (task : Task), task.type = some "ReportHaConsumables" →
      execForceStop (executeTask env task) =
        some (env.haStates.filter
          (consumableProblem task.entitiesToAlwaysReport)).isEmpty) ∧
    (∀ (env : Env) (task : Task) (evs evsF : List CalEvent),
      task.type = some "TomorrowEventsHa" →
      env.getCalendarEvents task.calendarEntity env.tomorrowStart env.tomorrowEnd = some evs →
      env.getCalendarEvents task.calendarEntity env.tomorrowEnd
        (env.futureEndOf task.calendarDaysInFuture) = some evsF →
      execForceStop (executeTask env task) = some (evs.isEmpty && evsF.isEmpty)) := by
  refine ⟨?_, ?_, ?_, ?_⟩
  · intro env task htype
    rw [executeTask_ok_eq env task _ (runBranch_battery env task htype)]
    rfl
  · intro env task htype
    rw [executeTask_ok_eq env task _ (runBranch_unavail env task htype)]
    show some (runReportHaUnavailableEntities env task).forceStop = _
    have hfs : (runReportHaUnavailableEntities env task).forceStop =
        !(env.haStates.any (unavailCond env task)) := by
      show (!(env.haStates.foldl (unavailStep env task)
        (UnavailAcc.mk "" false)).atLeast1Unavailable) = _
      rw [unavail_fold_flag]
      simp
    rw [hfs, ← filter_isEmpty_eq_not_any]
  · intro env task htype
    rw [executeTask_ok_eq env task _ (runBranch_consum env task htype)]
    show some (runReportHaConsumables env task).forceStop = _
    have hfs : (runReportHaConsumables env task).forceStop =
        !(env.haStates.any (consumableProblem task.entitiesToAlwaysReport)) := by
      show (!(env.haStates.foldl (consumStep task.entitiesToAlwaysReport)
        (ConsumAcc.mk "" false)).atLeast1Problem) = _
      rw [consum_fold_flag]
      simp
    rw [hfs, ← filter_isEmpty_eq_not_any]
  · intro env task evs evsF htype hev hevF
    have hrb : runBranch env task = .ok {
        events := []
        message := if !evsF.isEmpty then
            calEventLines env (if !evs.isEmpty then
              calEventLines env "" evs ++ divider ++ "\n"
            else calEventLines env "" evs) evsF
          else calEventLines env "" evs
        priority := if !evs.isEmpty then some 1 else none
        forceStop := evs.isEmpty && evsF.isEmpty
        deferred := none } := by
      rw [runBranch_tomorrow env task htype]
      unfold runTomorrowEventsHa
      rw [hev, hevF]
    rw [executeTask_ok_eq env task _ hrb]
    rfl

/-- C5 witness: against the concrete environment with an empty entity
list and empty calendars, the three report types suppress notification
and the battery report does not. -/
theorem report_forceStop_witness :
    execForceStop (executeTask trivialEnv (taskOfType "ReportHaBatteryStatus")) =
      some false ∧
    execForceStop (executeTask trivialEnv (taskOfType "ReportHaUnavailableEntities")) =
      some true ∧
    execForceStop (executeTask trivialEnv (taskOfType "ReportHaConsumables")) =
      some true ∧
    execForceStop (executeTask trivialEnv (taskOfType "TomorrowEventsHa")) =
      some true := by
  refine ⟨report_forceStop.1 trivialEnv _ rfl, ?_, ?_, ?_⟩
  · exact report_forceStop.2.1 trivialEnv (taskOfType "ReportHaUnavailableEntities") rfl
  · exact report_forceStop.2.2.1 trivialEnv (taskOfType "ReportHaConsumables") rfl
  · exact report_forceStop.2.2.2 trivialEnv (taskOfType "TomorrowEventsHa") [] [] rfl rfl rfl

end Monitor
